import Mathlib

/-
Verification development for the Medcurity client dashboard.

The embedding models the ECD projection engine and dashboard assembler of
the repository (the addEcdAcdFields / buildDashboard logic and date helpers),
together with the strict US date parser from the shared utilities module.

Modelling decisions:
* A JavaScript Date at local midnight is represented by its day count since
  1970-01-01 (an Int).  The civil-date conversions implement the standard
  Gregorian calendar algorithms and reproduce the rollover normalisation
  performed by the JS Date constructor (month and day overflow carry over).
* Strings are Lean strings; all string manipulation is implemented over
  character lists by structural recursion so that concrete instances can be
  settled by kernel evaluation.
* The wall clock read by the status classifier is passed in explicitly as a
  day count, matching the injectable "today" of the interface description.
* JS objects keyed by step display name are association lists in insertion
  order; reads and updates use the first binding with the given key.
-/

namespace Dash

/-! ## Integer calendar arithmetic (JS Date at local midnight, as day counts) -/

/-- Day count since 1970-01-01 of a civil date with month already in 1..12.
Gregorian-calendar conversion (era = 400-year block). -/
def daysFromCivil (y m d : Int) : Int :=
  let y2 : Int := y - (if m ≤ 2 then 1 else 0)
  let era : Int := y2 / 400
  let yoe : Int := y2 - era * 400
  let doy : Int := (153 * (m + (if 2 < m then -3 else 9)) + 2) / 5 + d - 1
  let doe : Int := yoe * 365 + yoe / 4 - yoe / 100 + doy
  era * 146097 + doe - 719468

/-- Civil date (year, month, day) of a day count since 1970-01-01. -/
def civilFromDays (z0 : Int) : Int × Int × Int :=
  let z : Int := z0 + 719468
  let era : Int := z / 146097
  let doe : Int := z - era * 146097
  let yoe : Int := (doe - doe / 1460 + doe / 36524 - doe / 146096) / 365
  let y : Int := yoe + era * 400
  let doy : Int := doe - (365 * yoe + yoe / 4 - yoe / 100)
  let mp : Int := (5 * doy + 2) / 153
  let d : Int := doy - (153 * mp + 2) / 5 + 1
  let m : Int := if mp < 10 then mp + 3 else mp - 9
  (if m ≤ 2 then y + 1 else y, m, d)

/-- JS Date construction from (fullYear, monthIndex, day): the month index is
normalised into the year (floor division), day overflow carries over, and a
two-digit year argument is interpreted as 19xx, exactly as the JS Date
constructor does. -/
def jsYMDdays (y mIdx d : Int) : Int :=
  let y1 : Int := if 0 ≤ y ∧ y ≤ 99 then y + 1900 else y
  let ny : Int := y1 + Int.fdiv mIdx 12
  let nm : Int := Int.emod mIdx 12 + 1
  daysFromCivil ny nm d

/-- JS Date construction returning none when the time value is out of the
representable range (the only case in which the constructor yields NaN). -/
def jsMakeDate (y mIdx d : Int) : Option Int :=
  let days := jsYMDdays y mIdx d
  if days.natAbs ≤ 100000000 then some days else none

/-- JS getDay: 0 = Sunday .. 6 = Saturday (1970-01-01 was a Thursday). -/
def weekdayOf (days : Int) : Int :=
  Int.emod (days + 4) 7

/-- shiftToMondayIfWeekend from the dashboard source: Saturday advances two
days, Sunday advances one day. -/
def shiftToMondayIfWeekend (d : Int) : Int :=
  let wd := weekdayOf d
  if wd = 6 then d + 2 else if wd = 0 then d + 1 else d

/-- shiftToFridayIfWeekend from the dashboard source: Saturday retreats one
day, Sunday retreats two days. -/
def shiftToFridayIfWeekend (d : Int) : Int :=
  let wd := weekdayOf d
  if wd = 6 then d - 1 else if wd = 0 then d - 2 else d

/-- nextBusinessDay from the dashboard source. -/
def nextBusinessDay (d : Int) : Int :=
  shiftToMondayIfWeekend (d + 1)

/-! ## Character-list string utilities (structural, kernel-evaluable) -/

def isWsChar (c : Char) : Bool :=
  c == ' ' || c == '\t' || c == '\n' || c == '\r'

def dropWs : List Char → List Char
  | [] => []
  | c :: cs => if isWsChar c then dropWs cs else c :: cs

/-- JS String.prototype.trim on the character list. -/
def trimChars (cs : List Char) : List Char :=
  (dropWs ((dropWs cs).reverse)).reverse

/-- JS trim of a string. -/
def jsTrim (s : String) : String :=
  ⟨trimChars s.data⟩

def isDigitChar (c : Char) : Bool :=
  c.isDigit

def digitVal (c : Char) : Nat :=
  c.toNat - '0'.toNat

def digitsToNat (cs : List Char) : Nat :=
  cs.foldl (fun acc c => acc * 10 + digitVal c) 0

/-- Take exactly k leading digits; return their value and the rest. -/
def takeDigits : Nat → List Char → Option (Nat × List Char)
  | 0, cs => some (0, cs)
  | _ + 1, [] => none
  | k + 1, c :: cs =>
    if isDigitChar c then
      match takeDigits k cs with
      | some (v, rest) => some (digitVal c * 10 ^ k + v, rest)
      | none => none
    else none

def splitOnCharAux (sep : Char) : List Char → List Char → List (List Char)
  | [], acc => [acc.reverse]
  | c :: cs, acc =>
    if c = sep then acc.reverse :: splitOnCharAux sep cs []
    else splitOnCharAux sep cs (c :: acc)

/-- JS String.prototype.split with a single-character separator. -/
def splitOnChar (sep : Char) (cs : List Char) : List (List Char) :=
  splitOnCharAux sep cs []

def startsWithChars : List Char → List Char → Bool
  | [], _ => true
  | _ :: _, [] => false
  | p :: ps, c :: cs => p == c && startsWithChars ps cs

/-- JS String.prototype.includes. -/
def containsChars (needle : List Char) : List Char → Bool
  | [] => startsWithChars needle []
  | c :: cs => startsWithChars needle (c :: cs) || containsChars needle cs

def jsIncludes (s sub : String) : Bool :=
  containsChars sub.data s.data

/-- Non-overlapping left-to-right global replacement, as JS replace with the
g flag; the fuel argument bounds the scan by the text length. -/
def replaceAllAux (pat rep : List Char) : Nat → List Char → List Char
  | _, [] => []
  | 0, cs => cs
  | fuel + 1, c :: cs =>
    if startsWithChars pat (c :: cs) then
      rep ++ replaceAllAux pat rep fuel ((c :: cs).drop pat.length)
    else
      c :: replaceAllAux pat rep fuel cs

def replaceAll (s pat rep : String) : String :=
  if pat.data.isEmpty then s
  else ⟨replaceAllAux pat.data rep.data s.data.length s.data⟩

def toLowerStr (s : String) : String :=
  ⟨s.data.map Char.toLower⟩

def toUpperStr (s : String) : String :=
  ⟨s.data.map Char.toUpper⟩

/-- JS `a || b` on strings (empty string is falsy). -/
def jsOr (a b : String) : String :=
  if a = "" then b else a

/-- Model of localeCompare as code-point lexicographic comparison. -/
def cmpChars : List Char → List Char → Int
  | [], [] => 0
  | [], _ :: _ => -1
  | _ :: _, [] => 1
  | a :: as2, b :: bs =>
    if a.toNat < b.toNat then -1
    else if b.toNat < a.toNat then 1
    else cmpChars as2 bs

def cmpStr (a b : String) : Int :=
  cmpChars a.data b.data

def pad2 (s : String) : String :=
  if s.length ≥ 2 then s
  else if s.length = 1 then "0" ++ s
  else "00" ++ s

/-- formatUSDate from the dashboard source: zero-padded MM/DD/ and the full
year as printed. -/
def formatUSDate (days : Int) : String :=
  let c := civilFromDays days
  pad2 (toString c.2.1) ++ "/" ++ pad2 (toString c.2.2) ++ "/" ++ toString c.1

/-! ## US date regex models -/

/-- One backtracking attempt of `(\d\x7b1,2\x7d)/(\d\x7b1,2\x7d)/(\d\x7bk\x7d)`
at the head of the list, with fixed group widths (ml, dl, yl); when anchored,
the year group must consume the remainder. -/
def matchWidths (cs : List Char) (ml dl yl : Nat) (anchored : Bool) :
    Option (Nat × Nat × Nat) :=
  match takeDigits ml cs with
  | none => none
  | some (mo, r1) =>
    match r1 with
    | '/' :: r2 =>
      match takeDigits dl r2 with
      | none => none
      | some (da, r3) =>
        match r3 with
        | '/' :: r4 =>
          match takeDigits yl r4 with
          | none => none
          | some (yr, r5) =>
            if anchored && !r5.isEmpty then none else some (mo, da, yr)
        | _ => none
    | _ => none

/-- Backtracking over the year-group widths, greedy first. -/
def tryYears (cs : List Char) (ml dl : Nat) (anchored : Bool) :
    List Nat → Option (Nat × Nat × Nat)
  | [] => none
  | yl :: rest =>
    match matchWidths cs ml dl yl anchored with
    | some r => some r
    | none => tryYears cs ml dl anchored rest

/-- Backtracking over month/day group widths, greedy first. -/
def tryMonthDay (cs : List Char) (anchored : Bool) (yls : List Nat) :
    List (Nat × Nat) → Option (Nat × Nat × Nat)
  | [] => none
  | (ml, dl) :: rest =>
    match tryYears cs ml dl anchored yls with
    | some r => some r
    | none => tryMonthDay cs anchored yls rest

/-- All backtracking attempts at one position, in the order the JS engine
explores them (greedy widths first). -/
def tryCombos (cs : List Char) (yls : List Nat) (anchored : Bool) :
    Option (Nat × Nat × Nat) :=
  tryMonthDay cs anchored yls [(2, 2), (2, 1), (1, 2), (1, 1)]

/-- Anchored match of `^(\d\x7b1,2\x7d)/(\d\x7b1,2\x7d)/(\d\x7b4\x7d)$`. -/
def anchoredUS (cs : List Char) : Option (Nat × Nat × Nat) :=
  tryCombos cs [4] true

/-- Leftmost unanchored search for `(\d\x7b1,2\x7d)/(\d\x7b1,2\x7d)/(\d\x7b2,4\x7d)`. -/
def searchUS : List Char → Option (Nat × Nat × Nat)
  | [] => tryCombos [] [4, 3, 2] false
  | c :: cs =>
    match tryCombos (c :: cs) [4, 3, 2] false with
    | some r => some r
    | none => searchUS cs

/-- parseUSDate from api/shared/utils.js: trim, anchored MM/DD/YYYY match
(four-digit year), then JS Date construction; null on no match or NaN. -/
def parseUSDate (text : String) : Option Int :=
  let value := jsTrim text
  match anchoredUS value.data with
  | none => none
  | some (mo, da, yr) => jsMakeDate (Int.ofNat yr) (Int.ofNat mo - 1) (Int.ofNat da)

/-- parseAnyUSDate from the dashboard source: trim, unanchored lenient search
with a 2-4 digit year, two-digit years ≥ 70 becoming 19xx else 20xx. -/
def parseAnyUSDate (value : String) : Option Int :=
  let text := jsTrim value
  if text = "" then none
  else
    match searchUS text.data with
    | none => none
    | some (mo, da, yr) =>
      let yr2 : Int := if yr < 100 then (if 70 ≤ yr then yr + 1900 else yr + 2000) else yr
      jsMakeDate yr2 (Int.ofNat mo - 1) (Int.ofNat da)

/-- parseMetricDate from the dashboard source (the midnight truncation is the
identity in the day-count model). -/
def parseMetricDate (v : String) : Option Int :=
  parseAnyUSDate v

/-! ## Step data model -/

/-- The nested ecd / acd display binding of a step. -/
structure SubField where
  editable : Bool
  metric_key : String
  value : String
  input_value : String
deriving DecidableEq, Repr

/-- One workflow step record, as built by the dashboard assembler.  The JS
object carries both a capitalised Status display key and a lowercase status
key; the status_class key of the source is named statusCls here because the
original spelling is not available. -/
structure Step where
  step_slug : String
  Status : String
  Owner : String
  ECD : String
  ACD : String
  ecd : SubField
  acd : SubField
  extras : List (String × String)
  statusCls : String
  status : String
  isKickoff : Bool
deriving DecidableEq, Repr

/-- A step map: JS object keyed by display name, in insertion order. -/
abbrev StepMap := List (String × Step)

def getStep : StepMap → String → Option Step
  | [], _ => none
  | (k, v) :: t, n => if k = n then some v else getStep t n

def modifyStep : StepMap → String → (Step → Step) → StepMap
  | [], _, _ => []
  | (k, v) :: t, n, f => if k = n then (k, f v) :: t else (k, v) :: modifyStep t n f

/-- findStepNameBySlug from the dashboard source: the first display name
whose step has the given slug. -/
def findStepNameBySlug (m : StepMap) (slug : String) : Option String :=
  (m.find? fun p => p.2.step_slug == slug).map (·.1)

/-- anchorDateForSlug from the dashboard source: the parsed ACD of the step
with the given slug, else its parsed ECD. -/
def anchorDateForSlug (m : StepMap) (slug : String) : Option Int :=
  match findStepNameBySlug m slug with
  | none => none
  | some name =>
    match getStep m name with
    | none => none
    | some step =>
      match parseMetricDate step.ACD with
      | some d => some d
      | none => parseMetricDate step.ECD

/-- setEcdFromDateIfBlank from the dashboard source. -/
def setEcdFromDateIfBlank (m : StepMap) (slug : String) (anchorDate : Option Int)
    (days : Int) : StepMap :=
  match findStepNameBySlug m slug, anchorDate with
  | some name, some a =>
    match getStep m name with
    | none => m
    | some step =>
      if jsTrim step.ECD ≠ "" then m
      else modifyStep m name fun s =>
        { s with ECD := formatUSDate (shiftToMondayIfWeekend (a + days)) }
  | _, _ => m

/-- setEcdIfBlank from the dashboard source. -/
def setEcdIfBlank (m : StepMap) (slug anchorSlug : String) (days : Int) : StepMap :=
  setEcdFromDateIfBlank m slug (anchorDateForSlug m anchorSlug) days

/-! ## Status classifier -/

/-- statusClass from the dashboard source (CSS pill class per status). -/
def statusPillOf (status : String) : String :=
  let s := jsOr status "Not Started"
  if s = "On Track" ∨ s = "Completed" then "status-pill-green"
  else if s = "Potential Roadblock" then "status-pill-yellow"
  else if s = "Roadblock/Overage" then "status-pill-red"
  else "status-pill-neutral"

/-- computeStepStatus from the dashboard source, with the wall clock passed
in as the day count of local midnight today. -/
def computeStepStatus (step : Step) (today : Int) : String :=
  if step.ACD ≠ "" then (if step.isKickoff then "Completed" else "On Track")
  else if step.isKickoff then "Not Started"
  else if step.ECD = "" then "Not Started"
  else
    match parseUSDate step.ECD with
    | none => "Not Started"
    | some e =>
      let diffDays := e - today
      if diffDays < 0 then "Roadblock/Overage"
      else if diffDays ≤ 3 then "Potential Roadblock"
      else "On Track"

/-- toInputDate from the dashboard source: an exact `MM/DD/YYYY` string
(two, two and four digits) becomes `YYYY-MM-DD`, anything else the empty
string.  The matched digit substrings are reused verbatim. -/
def toInputDate (dateUS : String) : String :=
  match (jsTrim dateUS).data with
  | [m1, m2, s1, d1, d2, s2, y1, y2, y3, y4] =>
    if isDigitChar m1 && isDigitChar m2 && s1 == '/' && isDigitChar d1 &&
        isDigitChar d2 && s2 == '/' && isDigitChar y1 && isDigitChar y2 &&
        isDigitChar y3 && isDigitChar y4 then
      ⟨[y1, y2, y3, y4, '-', m1, m2, '-', d1, d2]⟩
    else ""
  | _ => ""

/-! ## ECD projection engine (addEcdAcdFields) -/

/-- The name of the first step whose slug contains "kickoff". -/
def kickoffNameOf (m : StepMap) : Option String :=
  (m.find? fun p => jsIncludes p.2.step_slug "kickoff").map (·.1)

/-- The slug of that step, empty when there is none. -/
def kickoffSlugOf (m : StepMap) : String :=
  match kickoffNameOf m with
  | none => ""
  | some n => ((getStep m n).map (·.step_slug)).getD ""

/-- The step transformation of the kickoff forcing: the ECD is set to the
ACD (or blank) and the ecd binding becomes non-editable. -/
def kickoffUpd (s : Step) : Step :=
  { s with ECD := jsOr s.ACD "", ecd := { s.ecd with editable := false } }

/-- Kickoff forcing applied to the first step whose slug contains
"kickoff". -/
def kickoffPass (m : StepMap) : StepMap :=
  match kickoffNameOf m with
  | none => m
  | some n => modifyStep m n kickoffUpd

/-- go_onsite_have_interview rule: a parseable own ACD forces the ECD,
otherwise chain from review_policies_and_procedures_baa + 7. -/
def goRule (m : StepMap) : StepMap :=
  match findStepNameBySlug m "go_onsite_have_interview" with
  | none => m
  | some goName =>
    match getStep m goName with
    | none => m
    | some goStep =>
      match parseMetricDate goStep.ACD with
      | some goAcd => modifyStep m goName fun s => { s with ECD := formatUSDate goAcd }
      | none => setEcdIfBlank m "go_onsite_have_interview" "review_policies_and_procedures_baa" 7

/-- The parsed ECD of the step with the given slug, if any. -/
def slugEcdDate (m : StepMap) (slug : String) : Option Int :=
  match findStepNameBySlug m slug with
  | none => none
  | some n =>
    match getStep m n with
    | none => none
    | some s => parseMetricDate s.ECD

/-- The parsed ACD of the step with the given slug, if any. -/
def slugAcdDate (m : StepMap) (slug : String) : Option Int :=
  match findStepNameBySlug m slug with
  | none => none
  | some n =>
    match getStep m n with
    | none => none
    | some s => parseMetricDate s.ACD

/-- The sibling ECD dates read by the review_sra rule. -/
def reviewSiblings (m : StepMap) : List Int :=
  (slugEcdDate m "recieve_requested_follow_up_documentation").toList ++
    (slugEcdDate m "schedule_final_sra_report").toList

/-- Latest of a list of dates (JS reduce with a greater-than pick). -/
def latestOf : List Int → Option Int
  | [] => none
  | d :: ds => some (ds.foldl (fun a b => if a > b then a else b) d)

/-- The candidate date of the review_sra rule when chained from the
go_onsite anchor: anchor + 15 weekend-shifted forward, bumped to the next
business day after the latest sibling ECD when not strictly after it. -/
def reviewProposed (m : StepMap) (goAnchor : Int) : Int :=
  let base := shiftToMondayIfWeekend (goAnchor + 15)
  match latestOf (reviewSiblings m) with
  | none => base
  | some latest => if base ≤ latest then nextBusinessDay latest else base

/-- review_sra rule of the dashboard source. -/
def reviewSraRule (m : StepMap) : StepMap :=
  match findStepNameBySlug m "review_sra" with
  | none => m
  | some rn =>
    match getStep m rn with
    | none => m
    | some review =>
      if jsTrim review.ECD ≠ "" then m
      else
        match slugAcdDate m "present_final_sra_report" with
        | some pa =>
          modifyStep m rn fun s =>
            { s with ECD := formatUSDate (shiftToFridayIfWeekend (pa - 1)) }
        | none =>
          match anchorDateForSlug m "go_onsite_have_interview" with
          | none => m
          | some goAnchor =>
            modifyStep m rn fun s =>
              { s with ECD := formatUSDate (reviewProposed m goAnchor) }

/-- The anchor read by the present_final_sra_report rule: the later of the
review_sra ECD and ACD, the ACD winning ties only when strictly later. -/
def reviewAnchorOf (m : StepMap) : Option Int :=
  match slugAcdDate m "review_sra", slugEcdDate m "review_sra" with
  | some a, none => some a
  | some a, some e => some (if a > e then a else e)
  | none, e => e

/-- The candidate date of the present_final_sra_report rule: anchor + 7
weekend-shifted, bumped past the latest prerequisite date when not after
all of them. -/
def presentSraCand (m : StepMap) (ra : Int) : Int :=
  let cand0 := shiftToMondayIfWeekend (ra + 7)
  let prereq :=
    (["recieve_requested_follow_up_documentation",
      "schedule_final_sra_report", "review_sra"].map
      (anchorDateForSlug m)).reduceOption
  match latestOf prereq with
  | none => cand0
  | some minAllowed =>
    if cand0 ≤ minAllowed then nextBusinessDay minAllowed else cand0

/-- present_final_sra_report rule of the dashboard source. -/
def presentSraRule (m : StepMap) : StepMap :=
  match findStepNameBySlug m "present_final_sra_report" with
  | none => m
  | some pn =>
    match getStep m pn with
    | none => m
    | some present =>
      if jsTrim present.ECD ≠ "" then m
      else
        match parseMetricDate present.ACD with
        | some pa => modifyStep m pn fun s => { s with ECD := formatUSDate pa }
        | none =>
          match reviewAnchorOf m with
          | none => m
          | some ra =>
            modifyStep m pn fun s => { s with ECD := formatUSDate (presentSraCand m ra) }

/-- scans_complete rule of the dashboard source. -/
def scansRule (m : StepMap) : StepMap :=
  match findStepNameBySlug m "scans_complete" with
  | none => m
  | some sn =>
    match getStep m sn with
    | none => m
    | some scans =>
      if jsTrim scans.ECD ≠ "" then m
      else
        match slugAcdDate m "receive_credentials", slugAcdDate m "verify_access" with
        | some ra, some va =>
          setEcdFromDateIfBlank m "scans_complete" (some (if ra > va then ra else va)) 21
        | _, _ =>
          setEcdFromDateIfBlank m "scans_complete" (anchorDateForSlug m "nva_kickoff") 28

/-- compile_report rule: an unconditional overwrite when the NVA final
presentation has a parseable ACD, else a blank-guarded fill from the scans
ECD snapshot. -/
def compileRule (m : StepMap) (presentNvaAcd scansEcd : Option Int) : StepMap :=
  match findStepNameBySlug m "compile_report" with
  | none => m
  | some cn =>
    match presentNvaAcd with
    | some pa =>
      modifyStep m cn fun s =>
        { s with ECD := formatUSDate (shiftToFridayIfWeekend (pa - 1)) }
    | none => setEcdFromDateIfBlank m "compile_report" scansEcd 7

/-- access_removed rule, same shape as compile_report with offset 5. -/
def accessRule (m : StepMap) (presentNvaAcd scansEcd : Option Int) : StepMap :=
  match findStepNameBySlug m "access_removed" with
  | none => m
  | some an =>
    match presentNvaAcd with
    | some pa =>
      modifyStep m an fun s =>
        { s with ECD := formatUSDate (shiftToFridayIfWeekend (pa - 1)) }
    | none => setEcdFromDateIfBlank m "access_removed" scansEcd 5

/-- schedule_final_nva_report rule. -/
def scheduleNvaRule (m : StepMap) (scansAcd scansEcd : Option Int) : StepMap :=
  match findStepNameBySlug m "schedule_final_nva_report" with
  | none => m
  | some _ =>
    match scansAcd with
    | some sa => setEcdFromDateIfBlank m "schedule_final_nva_report" (some sa) 21
    | none => setEcdFromDateIfBlank m "schedule_final_nva_report" scansEcd 12

/-- present_final_nva_report rule, applied with the snapshot name. -/
def presentNvaRule (m : StepMap) (presentNvaName : Option String)
    (presentNvaAcd scansEcd : Option Int) : StepMap :=
  match presentNvaName with
  | none => m
  | some pn =>
    match presentNvaAcd with
    | some pa => modifyStep m pn fun s => { s with ECD := formatUSDate pa }
    | none => setEcdFromDateIfBlank m "present_final_nva_report" scansEcd 19

/-- The late NVA rules, run with date snapshots taken once before the four
rules, as in the source. -/
def nvaLateRules (m : StepMap) : StepMap :=
  let scansEcd := slugEcdDate m "scans_complete"
  let scansAcd := slugAcdDate m "scans_complete"
  let presentNvaName := findStepNameBySlug m "present_final_nva_report"
  let presentNvaAcd := slugAcdDate m "present_final_nva_report"
  let m1 := compileRule m presentNvaAcd scansEcd
  let m2 := accessRule m1 presentNvaAcd scansEcd
  let m3 := scheduleNvaRule m2 scansAcd scansEcd
  presentNvaRule m3 presentNvaName presentNvaAcd scansEcd

/-- The slugs covered by explicit rules; fallback offsets skip these. -/
def explicitSlugs : List String :=
  ["receive_policies_and_procedures_baa", "review_policies_and_procedures_baa",
   "schedule_onsite_remote_interview", "go_onsite_have_interview",
   "recieve_requested_follow_up_documentation", "review_sra",
   "schedule_final_sra_report", "present_final_sra_report", "sra_kickoff",
   "receive_credentials", "verify_access", "scans_complete", "access_removed",
   "compile_report", "schedule_final_nva_report", "present_final_nva_report",
   "nva_kickoff"]

/-- Fallback offset rules: every offsets entry outside the explicit set is
chained from the kickoff anchor, blank-guarded. -/
def fallbackPass (m : StepMap) (kickoffSlug : String)
    (offsets : List (String × Int)) : StepMap :=
  offsets.foldl
    (fun acc p =>
      if explicitSlugs.contains p.1 then acc
      else if kickoffSlug ≠ "" then setEcdIfBlank acc p.1 kickoffSlug p.2
      else acc)
    m

/-- The final loop of addEcdAcdFields: status and display bindings. -/
def statusUpdate (s : Step) (today : Int) : Step :=
  let isK := jsIncludes s.step_slug "kickoff"
  let s1 := { s with isKickoff := isK }
  let st := computeStepStatus s1 today
  { s1 with
    status := st
    statusCls := statusPillOf st
    ecd := { s1.ecd with
      value := jsOr s1.ECD "Not set"
      input_value := toInputDate s1.ECD
      editable := if isK then s1.ecd.editable else true }
    acd := { s1.acd with
      value := jsOr s1.ACD "Not set"
      input_value := toInputDate s1.ACD } }

def statusPass (m : StepMap) (today : Int) : StepMap :=
  m.map fun p => (p.1, statusUpdate p.2 today)

/-- The explicit SRA and NVA rule sequence plus the fallback offsets: the
whole rule chain of addEcdAcdFields between the kickoff forcing and the
status loop, in source order. -/
def midRules (m1 : StepMap) (kickoffSlug : String)
    (offsets : List (String × Int)) : StepMap :=
  let m2 := setEcdIfBlank m1 "receive_policies_and_procedures_baa" "sra_kickoff" 7
  let m3 := setEcdIfBlank m2 "review_policies_and_procedures_baa"
    "receive_policies_and_procedures_baa" 12
  let m4 := setEcdIfBlank m3 "schedule_onsite_remote_interview" "sra_kickoff" 14
  let m5 := goRule m4
  let m6 := setEcdIfBlank m5 "recieve_requested_follow_up_documentation"
    "go_onsite_have_interview" 14
  let m7 := setEcdIfBlank m6 "schedule_final_sra_report" "go_onsite_have_interview" 14
  let m8 := reviewSraRule m7
  let m9 := presentSraRule m8
  let m10 := setEcdIfBlank m9 "receive_credentials" "nva_kickoff" 7
  let m11 := setEcdIfBlank m10 "verify_access" "receive_credentials" 7
  let m12 := scansRule m11
  let m13 := nvaLateRules m12
  fallbackPass m13 kickoffSlug offsets

/-- addEcdAcdFields of the dashboard source: kickoff forcing, the explicit
SRA and NVA rule sequence, fallback offsets, then status and data bindings. -/
def addEcdAcdFields (m0 : StepMap) (offsets : List (String × Int))
    (today : Int) : StepMap :=
  statusPass (midRules (kickoffPass m0) (kickoffSlugOf m0) offsets) today

/-! ## Dashboard assembler (buildDashboard) -/

/-- getMetric from the dashboard source: first key whose trimmed value is
non-empty. -/
def lookupStr : List (String × String) → String → String
  | [], _ => ""
  | (k, v) :: t, key => if k = key then v else lookupStr t key

def getMetric (metrics : List (String × String)) : List String → String
  | [] => ""
  | key :: rest =>
    let value := jsTrim (lookupStr metrics key)
    if value ≠ "" then value else getMetric metrics rest

/-- parseBool from the dashboard source. -/
def parseBool (v : String) : Bool :=
  let t := toLowerStr (jsTrim v)
  t == "true" || t == "1" || t == "yes"

/-- JS `s.charAt(0).toUpperCase() + s.slice(1).toLowerCase()`. -/
def capitalizeWord (s : String) : String :=
  match s.data with
  | [] => ""
  | c :: cs => ⟨Char.toUpper c :: cs.map Char.toLower⟩

/-- titleCase from the dashboard source: underscores and hyphens to spaces,
word capitalisation, then the fixed acronym replacements. -/
def titleCase (value : String) : String :=
  let spaced : List Char := value.data.map fun c => if c = '_' ∨ c = '-' then ' ' else c
  let words := ((splitOnChar ' ' spaced).map fun w => (⟨w⟩ : String)).filter (· ≠ "")
  let joined := String.intercalate " " (words.map capitalizeWord)
  replaceAll (replaceAll (replaceAll (replaceAll (replaceAll joined
    "Sra" "SRA") "Nva" "NVA") "Baa" "BAA") "Acd" "ACD") "Ecd" "ECD"

/-- stepDisplayName from the dashboard source. -/
def stepDisplayName (_section slug location : String) : String :=
  let loc := toLowerStr location
  let onsite := jsIncludes loc "onsite"
  let remote := jsIncludes loc "remote"
  if slug = "schedule_onsite_remote_interview" then
    if onsite && !remote then "Schedule Onsite Visit"
    else if remote && !onsite then "Schedule Interview Sessions"
    else "Schedule Onsite/Remote Interview"
  else if slug = "go_onsite_have_interview" then
    if onsite && !remote then "Go Onsite/Have Interviews"
    else if remote && !onsite then "Conduct Interview Sessions"
    else "Go Onsite/Have Interviews"
  else if slug = "sra_kickoff" then "SRA Kickoff"
  else if slug = "receive_policies_and_procedures_baa" then "Receive Policies and Procedures / BAA"
  else if slug = "review_policies_and_procedures_baa" then "Review Policies and Procedures / BAA"
  else if slug = "recieve_requested_follow_up_documentation" then "Recieve Requested Follow up Documentation"
  else if slug = "review_sra" then "Review SRA"
  else if slug = "schedule_final_sra_report" then "Schedule Final SRA Report"
  else if slug = "present_final_sra_report" then "Present Final SRA Report"
  else if slug = "nva_kickoff" then "NVA Kickoff"
  else if slug = "receive_credentials" then "Receive Credentials"
  else if slug = "verify_access" then "Verify Access"
  else if slug = "scans_complete" then "Scans Complete"
  else if slug = "access_removed" then "Access Removed"
  else if slug = "compile_report" then "Compile Report"
  else if slug = "schedule_final_nva_report" then "Schedule Final NVA Report"
  else if slug = "present_final_nva_report" then "Present Final NVA Report"
  else titleCase slug

/-- stepOwner from the dashboard source. -/
def stepOwner (_section slug clientName : String) : String :=
  let medcurityOnly : List String :=
    ["sra_kickoff", "go_onsite_have_interview", "review_sra",
     "present_final_sra_report", "nva_kickoff", "scans_complete",
     "access_removed", "present_final_nva_report"]
  let shared : List String :=
    ["schedule_onsite_remote_interview", "receive_policies_and_procedures_baa",
     "review_policies_and_procedures_baa"]
  if medcurityOnly.contains slug then "Medcurity"
  else if shared.contains slug then "Medcurity & " ++ clientName
  else jsOr clientName "Not assigned"

/-- The fresh step record created when a metric key first mentions a step. -/
def defaultStep (sectionL slug _location clientName : String) : Step :=
  { step_slug := slug
    Status := "Not Started"
    Owner := stepOwner sectionL slug clientName
    ECD := ""
    ACD := ""
    ecd := { editable := true, metric_key := sectionL ++ "." ++ slug ++ ".ecd"
             value := "", input_value := "" }
    acd := { editable := true, metric_key := sectionL ++ "." ++ slug ++ ".date"
             value := "", input_value := "" }
    extras := []
    statusCls := "status-pill-neutral"
    status := "Not Started"
    isKickoff := false }

/-- Insert or update a step binding as the bucketing loop of buildDashboard
does: reuse an existing binding, else append a fresh default. -/
def bucketUpsert (m : StepMap) (name : String) (fresh : Step)
    (upd : Step → Step) : StepMap :=
  match getStep m name with
  | some _ => modifyStep m name upd
  | none => m ++ [(name, upd fresh)]

/-- The lowercased first dotted segment of a metric key. -/
def bucketSection (key : String) : String :=
  toLowerStr ⟨(splitOnChar '.' key.data).headI⟩

/-- The lowercased second dotted segment of a metric key (the step slug). -/
def bucketSlug (key : String) : String :=
  toLowerStr ⟨(splitOnChar '.' key.data).getD 1 []⟩

/-- The lowercased third dotted segment of a metric key (the field). -/
def bucketField (key : String) : String :=
  toLowerStr ⟨(splitOnChar '.' key.data).getD 2 []⟩

/-- The display-name key the entry is bucketed under. -/
def bucketName (key location : String) : String :=
  stepDisplayName (bucketSection key) (bucketSlug key) location

/-- The fresh step record for the entry. -/
def bucketFresh (key location clientName : String) : Step :=
  defaultStep (bucketSection key) (bucketSlug key) location clientName

/-- The field update applied by one bucketing iteration. -/
def bucketUpd (field value : String) : Step → Step :=
  if field = "date" ∨ field = "acd" then
    fun s => { s with ACD := jsTrim value }
  else if field = "ecd" then
    fun s => { s with ECD := jsTrim value }
  else
    fun s => { s with extras :=
      s.extras ++ [(titleCase field, jsOr (jsTrim value) "Not set")] }

/-- One iteration of the metric bucketing loop. -/
def bucketOne (location clientName : String) (acc : StepMap × StepMap)
    (pair : String × String) : StepMap × StepMap :=
  if (splitOnChar '.' pair.1.data).length < 3 then acc
  else if bucketSection pair.1 ≠ "sra" ∧ bucketSection pair.1 ≠ "nva" then acc
  else if bucketSection pair.1 = "sra" then
    (bucketUpsert acc.1 (bucketName pair.1 location)
      (bucketFresh pair.1 location clientName)
      (bucketUpd (bucketField pair.1) pair.2), acc.2)
  else
    (acc.1, bucketUpsert acc.2 (bucketName pair.1 location)
      (bucketFresh pair.1 location clientName)
      (bucketUpd (bucketField pair.1) pair.2))

/-- The full bucketing loop over the metrics map, in iteration order. -/
def bucketSteps (metrics : List (String × String)) (location clientName : String) :
    StepMap × StepMap :=
  metrics.foldl (bucketOne location clientName) ([], [])

def sraOrder : List String :=
  ["sra_kickoff", "receive_policies_and_procedures_baa",
   "review_policies_and_procedures_baa", "schedule_onsite_remote_interview",
   "go_onsite_have_interview", "recieve_requested_follow_up_documentation",
   "review_sra", "schedule_final_sra_report", "present_final_sra_report"]

def nvaOrder : List String :=
  ["nva_kickoff", "receive_credentials", "verify_access", "scans_complete",
   "access_removed", "compile_report", "schedule_final_nva_report",
   "present_final_nva_report"]

/-- JS Array.prototype.indexOf, with -1 for a missing element. -/
def jsIndexOf (l : List String) (x : String) : Int :=
  match l with
  | [] => -1
  | h :: t => if h = x then 0 else
    match jsIndexOf t x with
    | -1 => -1
    | i => i + 1

/-- The comparator of orderSteps in the dashboard source. -/
def orderCmp (order : List String) (a b : String × Step) : Int :=
  let ai := jsIndexOf order a.2.step_slug
  let bi := jsIndexOf order b.2.step_slug
  if ai = -1 ∧ bi = -1 then cmpStr a.1 b.1
  else if ai = -1 then 1
  else if bi = -1 then -1
  else ai - bi

/-- Stable insertion: an element goes before the first strictly greater one,
so that elements comparing equal keep their original relative order. -/
def stableInsert (le : String × Step → String × Step → Bool) (x : String × Step) :
    StepMap → StepMap
  | [] => [x]
  | h :: t => if le h x && !le x h then h :: stableInsert le x t
    else if le h x && le x h then
      -- both directions hold: equal keys, keep the earlier element first
      h :: stableInsert le x t
    else x :: h :: t

/-- A stable sort (model of the stable JS Array sort). -/
def stableSort (le : String × Step → String × Step → Bool) : StepMap → StepMap
  | [] => []
  | h :: t => stableInsert le h (stableSort le t)

/-- orderSteps from the dashboard source. -/
def orderSteps (m : StepMap) (order : List String) : StepMap :=
  stableSort (fun a b => orderCmp order a b ≤ 0) m

/-- The dashboard view model produced by buildDashboard. -/
structure Dashboard where
  project_details : List (String × String)
  show_sra : Bool
  show_nva : Bool
  sra_steps : StepMap
  nva_steps : StepMap
  extra_metrics : List (String × String)
deriving DecidableEq, Repr

/-- A normalized task row, as produced by the upstream task client.  Only
metrics, task_name and task_status are read by buildDashboard. -/
structure Row where
  sf_id : String := ""
  task_id : String := ""
  task_name : String := ""
  task_url : String := ""
  task_status : String := ""
  metrics : List (String × String) := []
deriving DecidableEq, Repr

def sraOffsets : List (String × Int) :=
  [("receive_policies_and_procedures_baa", 7),
   ("review_policies_and_procedures_baa", 19),
   ("schedule_onsite_remote_interview", 14),
   ("go_onsite_have_interview", 21),
   ("recieve_requested_follow_up_documentation", 28),
   ("review_sra", 35), ("schedule_final_sra_report", 42),
   ("present_final_sra_report", 49)]

def nvaOffsets : List (String × Int) :=
  [("receive_credentials", 7), ("verify_access", 14), ("scans_complete", 21),
   ("access_removed", 28), ("compile_report", 35),
   ("schedule_final_nva_report", 42), ("present_final_nva_report", 49)]

/-- The trimmed SRA kickoff ACD string read by the cross-track copy. -/
def kickoffAcdOf (sraSteps : StepMap) (sk : String) : String :=
  jsTrim (((getStep sraSteps sk).map fun s => s.ACD).getD "")

/-- The cross-track kickoff copy of buildDashboard: with both tracks shown
and a non-blank SRA kickoff ACD, that ACD is written onto the NVA kickoff. -/
def crossCopyKickoff (showSra showNva : Bool) (sraSteps nvaSteps : StepMap) :
    StepMap :=
  if showSra && showNva then
    match findStepNameBySlug sraSteps "sra_kickoff",
        findStepNameBySlug nvaSteps "nva_kickoff" with
    | some sk, some nk =>
      if kickoffAcdOf sraSteps sk ≠ "" then
        modifyStep nvaSteps nk fun s => { s with ACD := kickoffAcdOf sraSteps sk }
      else nvaSteps
    | _, _ => nvaSteps
  else nvaSteps

/-- The trimmed ECD string of the named binding (used by the alignment). -/
def presentEcdOf (nsra : StepMap) (sp : String) : String :=
  jsTrim (((getStep nsra sp).map fun s => s.ECD).getD "")

/-- The per-step mutation of the present-report alignment: ECD and its
display bindings take the SRA value and the status is recomputed. -/
def alignUpd (sraEcd : String) (today : Int) (s : Step) : Step :=
  let s1 := { s with
    ECD := sraEcd
    ecd := { s.ecd with value := sraEcd, input_value := toInputDate sraEcd } }
  let st := computeStepStatus s1 today
  { s1 with status := st, statusCls := statusPillOf st }

/-- The final present-report ECD alignment of buildDashboard, applied to the
two normalized step maps. -/
def alignPresent (nsra nnva : StepMap) (today : Int) : StepMap :=
  match findStepNameBySlug nsra "present_final_sra_report",
      findStepNameBySlug nnva "present_final_nva_report" with
  | some sp, some np =>
    if presentEcdOf nsra sp ≠ "" then
      modifyStep nnva np (alignUpd (presentEcdOf nsra sp) today)
    else nnva
  | _, _ => nnva

/-- buildDashboard of the dashboard source, as a function of the row fields
it reads, with the wall clock injected. -/
def buildDashboardAux (metrics : List (String × String))
    (taskName taskStatus : String) (today : Int) : Dashboard :=
  let location := getMetric metrics ["project.remote_onsite", "project.location"]
  let showSra := parseBool (getMetric metrics ["project.sra_enabled"])
  let showNva := parseBool (getMetric metrics ["project.nva_enabled"])
  let support := getMetric metrics ["project.project_support"]
  let projectDetails :=
    [("Status", titleCase taskStatus),
     ("Project Lead", jsOr (getMetric metrics ["project.project_lead"]) "Not assigned"),
     ("Location", jsOr location "Not set")] ++
    (if support = "" then [] else [("Project Support", support)]) ++
    [("Next Steps", jsOr (getMetric metrics ["project.next_steps"]) "Not set")]
  let buckets := bucketSteps metrics location taskName
  let sraSteps := buckets.1
  let nvaSteps := crossCopyKickoff showSra showNva buckets.1 buckets.2
  let normalizedSra := addEcdAcdFields sraSteps sraOffsets today
  let normalizedNva := addEcdAcdFields nvaSteps nvaOffsets today
  let alignedNva := alignPresent normalizedSra normalizedNva today
  { project_details := projectDetails
    show_sra := showSra
    show_nva := showNva
    sra_steps := orderSteps normalizedSra sraOrder
    nva_steps := orderSteps alignedNva nvaOrder
    extra_metrics := [] }

/-- buildDashboard applied to a row (only metrics, task_name and task_status
are read). -/
def buildDashboard (row : Row) (today : Int) : Dashboard :=
  buildDashboardAux row.metrics row.task_name row.task_status today

/-! ## Auxiliary notions used by the verification -/

def keysOf (m : StepMap) : List String :=
  m.map Prod.fst

/-- The mid-pipeline evolution relation: every rule between the kickoff
forcing and the status loop changes at most the ECD string of a binding. -/
def MidEvolves (m m' : StepMap) : Prop :=
  keysOf m' = keysOf m ∧
  ∀ n s, getStep m n = some s →
    ∃ s', getStep m' n = some s' ∧ s' = { s with ECD := s'.ECD }

/-- Every binding of the map has an unparseable (or missing) ACD and ECD. -/
def AllUnparseable (m : StepMap) : Prop :=
  ∀ p ∈ m, parseMetricDate p.2.ACD = none ∧ parseMetricDate p.2.ECD = none

/-! ## Concrete instances used to settle the claims -/

/-- Step map exhibiting the compile_report overwrite: a non-blank manual
compile_report ECD next to a present_final_nva_report ACD. -/
def mapC1 : StepMap :=
  [("Compile Report",
    { defaultStep "nva" "compile_report" "" "Acme" with ECD := "02/02/2025" }),
   ("Present Final NVA Report",
    { defaultStep "nva" "present_final_nva_report" "" "Acme" with ACD := "01/06/2025" })]

/-- Witness map for the amended engine invariant. -/
def stepW1 : Step :=
  { defaultStep "sra" "review_sra" "" "Acme" with ECD := "02/02/2025" }

def mapW1 : StepMap := [("Review SRA", stepW1)]

/-- Row with both tracks enabled and kickoff ACDs on both tracks. -/
def rowC2 : Row :=
  { task_name := "Acme", task_status := "open"
    metrics := [("sra.sra_kickoff.date", "03/03/2025"),
                ("nva.nva_kickoff.date", "04/04/2025"),
                ("project.sra_enabled", "true"), ("project.nva_enabled", "true")] }

def dayC2 : Int := daysFromCivil 2025 1 1

/-- Step and day for the status-classifier witness (ECD = today + 3). -/
def stepC3 : Step :=
  { defaultStep "sra" "review_sra" "" "Acme" with ECD := "01/11/2025" }

def dayC3 : Int := daysFromCivil 2025 1 8

/-- The metrics map of the end-to-end scenario, as literally specified. -/
def rowC4 : Row :=
  { task_name := "Acme", task_status := "in progress"
    metrics := [("sra.sra_kickoff.date", "01/06/2025"),
                ("project.sra_enabled", "true"), ("project.nva_enabled", "false")] }

/-- The scenario metrics map extended with a key that makes the
receive_policies_and_procedures_baa step exist. -/
def rowC4b : Row :=
  { task_name := "Acme", task_status := "in progress"
    metrics := [("sra.sra_kickoff.date", "01/06/2025"),
                ("project.sra_enabled", "true"), ("project.nva_enabled", "false"),
                ("sra.receive_policies_and_procedures_baa.date", "")] }

def dayC4 : Int := daysFromCivil 2025 1 8

/-- Row with the NVA track disabled, a manual SRA present ECD and a manual
NVA present ECD. -/
def rowC5 : Row :=
  { task_name := "Acme", task_status := "open"
    metrics := [("sra.present_final_sra_report.ecd", "02/07/2025"),
                ("nva.present_final_nva_report.ecd", "03/03/2025"),
                ("project.sra_enabled", "true"), ("project.nva_enabled", "false")] }

/-- Step map with two kickoff-slugged steps; the forcing touches only the
first. -/
def mapC6 : StepMap :=
  [("SRA Kickoff",
    { defaultStep "sra" "sra_kickoff" "" "Acme" with ACD := "01/06/2025" }),
   ("Extra Kickoff",
    { defaultStep "sra" "extra_kickoff" "" "Acme" with ECD := "05/05/2025" })]

/-- Witness map for the amended kickoff-forcing claim: a kickoff with both a
manual ECD and an ACD. -/
def stepW6 : Step :=
  { defaultStep "sra" "sra_kickoff" "" "Acme" with
    ACD := "01/06/2025", ECD := "02/02/2025" }

def mapW6 : StepMap := [("SRA Kickoff", stepW6)]

/-- Witness map for the review_sra rule: blank review ECD and a parseable
present_final_sra_report ACD (a Monday, so the minus-one lands on Sunday
and shifts back to Friday). -/
def stepW7 : Step := defaultStep "sra" "review_sra" "" "Acme"

def mapW7 : StepMap :=
  [("Review SRA", stepW7),
   ("Present Final SRA Report",
    { defaultStep "sra" "present_final_sra_report" "" "Acme" with ACD := "01/06/2025" })]

/-- Witness map for the malformed-input claim: dates that fail to parse. -/
def stepW8 : Step :=
  { defaultStep "sra" "review_sra" "" "Acme" with ACD := "n/a", ECD := "soon" }

def mapW8 : StepMap := [("Review SRA", stepW8)]

/-- Two rows agreeing on metrics, task name and task status, differing in
the remaining fields. -/
def rowC9a : Row :=
  { sf_id := "A1", task_id := "t1", task_name := "Acme", task_url := "u1"
    task_status := "open", metrics := [("sra.sra_kickoff.date", "01/06/2025")] }

def rowC9b : Row :=
  { sf_id := "B2", task_id := "t2", task_name := "Acme", task_url := "u2"
    task_status := "open", metrics := [("sra.sra_kickoff.date", "01/06/2025")] }

/-! ## Basic lemmas on step maps -/

theorem getStep_modifyStep_self (m : StepMap) (n : String) (f : Step → Step) :
    getStep (modifyStep m n f) n = (getStep m n).map f := by
  induction m with
  | nil => rfl
  | cons h t ih =>
    obtain ⟨k, v⟩ := h
    by_cases hk : k = n
    · simp [modifyStep, getStep, hk]
    · simp [modifyStep, getStep, hk, ih]

theorem getStep_modifyStep_ne (m : StepMap) (n n' : String) (f : Step → Step)
    (h : n' ≠ n) : getStep (modifyStep m n f) n' = getStep m n' := by
  induction m with
  | nil => rfl
  | cons p t ih =>
    obtain ⟨k, v⟩ := p
    have hnn : ¬ (n = n') := fun hh => h hh.symm
    by_cases hk : k = n
    · simp [modifyStep, getStep, hk, hnn]
    · by_cases hk' : k = n'
      · simp [modifyStep, getStep, hk, hk', h]
      · simp [modifyStep, getStep, hk, hk', ih]

theorem keysOf_modifyStep (m : StepMap) (n : String) (f : Step → Step) :
    keysOf (modifyStep m n f) = keysOf m := by
  induction m with
  | nil => rfl
  | cons p t ih =>
    obtain ⟨k, v⟩ := p
    by_cases hk : k = n
    · simp [modifyStep, keysOf, hk]
    · simp only [modifyStep, if_neg hk, keysOf, List.map_cons]
      rw [show (modifyStep t n f).map Prod.fst = keysOf (modifyStep t n f) from rfl, ih]
      rfl

theorem getStep_mem (m : StepMap) (n : String) (s : Step)
    (h : getStep m n = some s) : (n, s) ∈ m := by
  induction m with
  | nil => simp [getStep] at h
  | cons p t ih =>
    obtain ⟨k, v⟩ := p
    by_cases hk : k = n
    · subst hk
      simp [getStep] at h
      simp [h]
    · simp [getStep, hk] at h
      exact List.mem_cons_of_mem _ (ih h)

theorem getStep_eq_none_iff (m : StepMap) (n : String) :
    getStep m n = none ↔ n ∉ keysOf m := by
  induction m with
  | nil => simp [getStep, keysOf]
  | cons p t ih =>
    obtain ⟨k, v⟩ := p
    by_cases hk : k = n
    · subst hk
      simp [getStep, keysOf]
    · have hnk : ¬ n = k := by
        intro hh
        exact hk hh.symm
      simp only [getStep, if_neg hk, keysOf, List.map_cons, List.mem_cons]
      rw [ih]
      unfold keysOf
      tauto

theorem getStep_isSome_of_mem_keys (m : StepMap) (n : String)
    (h : n ∈ keysOf m) : ∃ s, getStep m n = some s := by
  cases hg : getStep m n with
  | none => exact absurd ((getStep_eq_none_iff m n).mp hg) (by simpa using h)
  | some s => exact ⟨s, rfl⟩

theorem getStep_of_mem_nodup (m : StepMap) (n : String) (s : Step)
    (hnd : (keysOf m).Nodup) (h : (n, s) ∈ m) : getStep m n = some s := by
  induction m with
  | nil => simp at h
  | cons p t ih =>
    obtain ⟨k, v⟩ := p
    simp only [keysOf, List.map_cons, List.nodup_cons] at hnd
    rcases List.mem_cons.mp h with heq | hmem
    · have h1 : n = k := congrArg Prod.fst heq
      have h2 : s = v := congrArg Prod.snd heq
      subst h1
      subst h2
      simp [getStep]
    · have hk : k ≠ n := by
        intro hkn
        exact hnd.1 (hkn ▸ (List.mem_map.mpr ⟨(n, s), hmem, rfl⟩))
      simp only [getStep, if_neg hk]
      exact ih hnd.2 hmem

theorem findSlug_get (m : StepMap) (slug n : String)
    (hnd : (keysOf m).Nodup) (h : findStepNameBySlug m slug = some n) :
    ∃ s, getStep m n = some s ∧ s.step_slug = slug := by
  unfold findStepNameBySlug at h
  cases hf : m.find? (fun p => p.2.step_slug == slug) with
  | none => simp [hf] at h
  | some p =>
    have hmem := List.mem_of_find?_eq_some hf
    have hp := List.find?_some hf
    obtain ⟨k, v⟩ := p
    simp only [hf, Option.map_some'] at h
    simp at h
    subst h
    refine ⟨v, getStep_of_mem_nodup m _ _ hnd hmem, ?_⟩
    simpa using hp

theorem find_some_get (m : StepMap) (slug n : String)
    (h : findStepNameBySlug m slug = some n) : ∃ s, getStep m n = some s := by
  unfold findStepNameBySlug at h
  cases hf : m.find? (fun p => p.2.step_slug == slug) with
  | none => simp [hf] at h
  | some p =>
    have hmem := List.mem_of_find?_eq_some hf
    obtain ⟨k, v⟩ := p
    simp only [hf, Option.map_some'] at h
    simp at h
    subst h
    exact getStep_isSome_of_mem_keys m _ (List.mem_map.mpr ⟨(k, v), hmem, rfl⟩)

theorem kickoffName_get (m : StepMap) (n : String)
    (hnd : (keysOf m).Nodup) (h : kickoffNameOf m = some n) :
    ∃ s, getStep m n = some s ∧ jsIncludes s.step_slug "kickoff" = true := by
  unfold kickoffNameOf at h
  cases hf : m.find? (fun p => jsIncludes p.2.step_slug "kickoff") with
  | none => simp [hf] at h
  | some p =>
    have hmem := List.mem_of_find?_eq_some hf
    have hp := List.find?_some hf
    obtain ⟨k, v⟩ := p
    simp only [hf, Option.map_some'] at h
    simp at h
    subst h
    exact ⟨v, getStep_of_mem_nodup m _ _ hnd hmem, hp⟩

/-! ## The mid-pipeline evolution relation -/

theorem midEvolves_refl (m : StepMap) : MidEvolves m m := by
  refine ⟨rfl, fun n s h => ⟨s, h, ?_⟩⟩
  cases s
  rfl

theorem midEvolves_trans {m1 m2 m3 : StepMap}
    (h12 : MidEvolves m1 m2) (h23 : MidEvolves m2 m3) : MidEvolves m1 m3 := by
  refine ⟨h23.1.trans h12.1, fun n s h => ?_⟩
  obtain ⟨s2, hg2, he2⟩ := h12.2 n s h
  obtain ⟨s3, hg3, he3⟩ := h23.2 n s2 hg2
  refine ⟨s3, hg3, ?_⟩
  cases s
  cases s2
  cases s3
  simp_all

theorem midEvolves_modifyEcd (m : StepMap) (n : String) (g : Step → String) :
    MidEvolves m (modifyStep m n fun s => { s with ECD := g s }) := by
  refine ⟨keysOf_modifyStep m n _, fun n' s h => ?_⟩
  by_cases hn : n' = n
  · subst hn
    refine ⟨{ s with ECD := g s }, ?_, rfl⟩
    rw [getStep_modifyStep_self, h]
    rfl
  · refine ⟨s, ?_, by cases s; rfl⟩
    rw [getStep_modifyStep_ne m n n' _ hn, h]

theorem midEvolves_setEcdFromDateIfBlank (m : StepMap) (slug : String)
    (a : Option Int) (d : Int) :
    MidEvolves m (setEcdFromDateIfBlank m slug a d) := by
  unfold setEcdFromDateIfBlank
  split
  · split
    · exact midEvolves_refl m
    · split
      · exact midEvolves_refl m
      · exact midEvolves_modifyEcd m _ _
  · exact midEvolves_refl m

theorem midEvolves_setEcdIfBlank (m : StepMap) (slug anchorSlug : String) (d : Int) :
    MidEvolves m (setEcdIfBlank m slug anchorSlug d) :=
  midEvolves_setEcdFromDateIfBlank m slug _ d

theorem midEvolves_goRule (m : StepMap) : MidEvolves m (goRule m) := by
  unfold goRule
  split
  · exact midEvolves_refl m
  · split
    · exact midEvolves_refl m
    · split
      · exact midEvolves_modifyEcd m _ _
      · exact midEvolves_setEcdIfBlank m _ _ _

theorem midEvolves_reviewSraRule (m : StepMap) : MidEvolves m (reviewSraRule m) := by
  unfold reviewSraRule
  split
  · exact midEvolves_refl m
  · split
    · exact midEvolves_refl m
    · split
      · exact midEvolves_refl m
      · split
        · exact midEvolves_modifyEcd m _ _
        · split
          · exact midEvolves_refl m
          · exact midEvolves_modifyEcd m _ _

theorem midEvolves_presentSraRule (m : StepMap) : MidEvolves m (presentSraRule m) := by
  unfold presentSraRule
  split
  · exact midEvolves_refl m
  · split
    · exact midEvolves_refl m
    · split
      · exact midEvolves_refl m
      · split
        · exact midEvolves_modifyEcd m _ _
        · split
          · exact midEvolves_refl m
          · exact midEvolves_modifyEcd m _ _

theorem midEvolves_scansRule (m : StepMap) : MidEvolves m (scansRule m) := by
  unfold scansRule
  split
  · exact midEvolves_refl m
  · split
    · exact midEvolves_refl m
    · split
      · exact midEvolves_refl m
      · split
        · exact midEvolves_setEcdFromDateIfBlank m _ _ _
        · exact midEvolves_setEcdFromDateIfBlank m _ _ _

theorem midEvolves_compileRule (m : StepMap) (pAcd sEcd : Option Int) :
    MidEvolves m (compileRule m pAcd sEcd) := by
  unfold compileRule
  split
  · exact midEvolves_refl m
  · split
    · exact midEvolves_modifyEcd m _ _
    · exact midEvolves_setEcdFromDateIfBlank m _ _ _

theorem midEvolves_accessRule (m : StepMap) (pAcd sEcd : Option Int) :
    MidEvolves m (accessRule m pAcd sEcd) := by
  unfold accessRule
  split
  · exact midEvolves_refl m
  · split
    · exact midEvolves_modifyEcd m _ _
    · exact midEvolves_setEcdFromDateIfBlank m _ _ _

theorem midEvolves_scheduleNvaRule (m : StepMap) (sAcd sEcd : Option Int) :
    MidEvolves m (scheduleNvaRule m sAcd sEcd) := by
  unfold scheduleNvaRule
  split
  · exact midEvolves_refl m
  · split
    · exact midEvolves_setEcdFromDateIfBlank m _ _ _
    · exact midEvolves_setEcdFromDateIfBlank m _ _ _

theorem midEvolves_presentNvaRule (m : StepMap) (pn : Option String)
    (pAcd sEcd : Option Int) : MidEvolves m (presentNvaRule m pn pAcd sEcd) := by
  unfold presentNvaRule
  split
  · exact midEvolves_refl m
  · split
    · exact midEvolves_modifyEcd m _ _
    · exact midEvolves_setEcdFromDateIfBlank m _ _ _

theorem midEvolves_nvaLateRules (m : StepMap) : MidEvolves m (nvaLateRules m) := by
  unfold nvaLateRules
  exact midEvolves_trans (midEvolves_compileRule m _ _)
    (midEvolves_trans (midEvolves_accessRule _ _ _)
      (midEvolves_trans (midEvolves_scheduleNvaRule _ _ _)
        (midEvolves_presentNvaRule _ _ _ _)))

theorem midEvolves_fallbackPass (m : StepMap) (ks : String)
    (offs : List (String × Int)) : MidEvolves m (fallbackPass m ks offs) := by
  induction offs generalizing m with
  | nil => exact midEvolves_refl m
  | cons p t ih =>
    have hstep : MidEvolves m
        (if explicitSlugs.contains p.1 then m
         else if ks ≠ "" then setEcdIfBlank m p.1 ks p.2 else m) := by
      by_cases h1 : explicitSlugs.contains p.1
      · simp only [if_pos h1]
        exact midEvolves_refl m
      · simp only [if_neg h1]
        by_cases h2 : ks ≠ ""
        · simp only [if_pos h2]
          exact midEvolves_setEcdIfBlank m _ _ _
        · simp only [if_neg h2]
          exact midEvolves_refl m
    exact midEvolves_trans hstep (ih _)

theorem keysOf_kickoffPass (m : StepMap) : keysOf (kickoffPass m) = keysOf m := by
  unfold kickoffPass
  split
  · rfl
  · exact keysOf_modifyStep m _ _

theorem kickoffPass_get (m : StepMap) (n : String) (s : Step)
    (h : getStep m n = some s) :
    ∃ s', getStep (kickoffPass m) n = some s' ∧
      (s' = s ∨ s' = kickoffUpd s) := by
  unfold kickoffPass
  split
  · exact ⟨s, h, Or.inl rfl⟩
  · next k _ =>
    by_cases hn : n = k
    · subst hn
      refine ⟨kickoffUpd s, ?_, Or.inr rfl⟩
      rw [getStep_modifyStep_self, h]
      rfl
    · refine ⟨s, ?_, Or.inl rfl⟩
      rw [getStep_modifyStep_ne m k n _ hn, h]

theorem getStep_statusPass (m : StepMap) (t : Int) (n : String) :
    getStep (statusPass m t) n = (getStep m n).map fun s => statusUpdate s t := by
  induction m with
  | nil => rfl
  | cons p l ih =>
    obtain ⟨k, v⟩ := p
    by_cases hk : k = n
    · simp [statusPass, getStep, hk]
    · simp only [statusPass, List.map_cons, getStep, if_neg hk]
      simpa [statusPass] using ih

theorem keysOf_statusPass (m : StepMap) (t : Int) :
    keysOf (statusPass m t) = keysOf m := by
  induction m with
  | nil => rfl
  | cons p l ih =>
    simp only [statusPass, List.map_cons, keysOf] at *
    rw [ih]

/-- The mid-pipeline portion of addEcdAcdFields (everything between the
kickoff pass and the status loop). -/
theorem midEvolves_midRules (m1 : StepMap) (ks : String)
    (offsets : List (String × Int)) :
    MidEvolves m1 (midRules m1 ks offsets) := by
  unfold midRules
  refine midEvolves_trans
    (midEvolves_setEcdIfBlank _ "receive_policies_and_procedures_baa" "sra_kickoff" 7) ?_
  refine midEvolves_trans
    (midEvolves_setEcdIfBlank _ "review_policies_and_procedures_baa"
      "receive_policies_and_procedures_baa" 12) ?_
  refine midEvolves_trans
    (midEvolves_setEcdIfBlank _ "schedule_onsite_remote_interview" "sra_kickoff" 14) ?_
  refine midEvolves_trans (midEvolves_goRule _) ?_
  refine midEvolves_trans
    (midEvolves_setEcdIfBlank _ "recieve_requested_follow_up_documentation"
      "go_onsite_have_interview" 14) ?_
  refine midEvolves_trans
    (midEvolves_setEcdIfBlank _ "schedule_final_sra_report" "go_onsite_have_interview" 14) ?_
  refine midEvolves_trans (midEvolves_reviewSraRule _) ?_
  refine midEvolves_trans (midEvolves_presentSraRule _) ?_
  refine midEvolves_trans
    (midEvolves_setEcdIfBlank _ "receive_credentials" "nva_kickoff" 7) ?_
  refine midEvolves_trans
    (midEvolves_setEcdIfBlank _ "verify_access" "receive_credentials" 7) ?_
  refine midEvolves_trans (midEvolves_scansRule _) ?_
  refine midEvolves_trans (midEvolves_nvaLateRules _) ?_
  exact midEvolves_fallbackPass _ _ _

/-! ## Keep lemmas: conditions under which a binding passes a rule untouched -/

theorem keep_setEcdFromDateIfBlank (m : StepMap) (slug : String) (a : Option Int)
    (d : Int) (n : String) (s : Step) (h : getStep m n = some s)
    (hE : jsTrim s.ECD ≠ "") :
    getStep (setEcdFromDateIfBlank m slug a d) n = some s := by
  unfold setEcdFromDateIfBlank
  split
  · next name av hna =>
    split
    · exact h
    · next step hstep =>
      split
      · exact h
      · next hb =>
        by_cases hn : n = name
        · subst hn
          rw [h] at hstep
          injection hstep with hstep
          rw [hstep] at hE
          exact absurd hE hb
        · rw [getStep_modifyStep_ne m name n _ hn]
          exact h
  · exact h

theorem keep_setEcdIfBlank (m : StepMap) (slug anchorSlug : String) (d : Int)
    (n : String) (s : Step) (h : getStep m n = some s)
    (hE : jsTrim s.ECD ≠ "") :
    getStep (setEcdIfBlank m slug anchorSlug d) n = some s :=
  keep_setEcdFromDateIfBlank m slug _ d n s h hE

theorem keep_slug_setEcdFromDateIfBlank (m : StepMap) (slug : String)
    (a : Option Int) (d : Int) (n : String) (s : Step)
    (hnd : (keysOf m).Nodup) (h : getStep m n = some s)
    (hs : s.step_slug ≠ slug) :
    getStep (setEcdFromDateIfBlank m slug a d) n = some s := by
  unfold setEcdFromDateIfBlank
  split
  · next name av hna =>
    split
    · exact h
    · next step hstep =>
      split
      · exact h
      · obtain ⟨s0, hg0, hslug0⟩ := findSlug_get m slug name hnd hna
        have hn : n ≠ name := by
          intro hn
          subst hn
          rw [h] at hg0
          injection hg0 with hg0
          rw [hg0] at hs
          exact hs hslug0
        rw [getStep_modifyStep_ne m name n _ hn]
        exact h
  · exact h

theorem keep_slug_setEcdIfBlank (m : StepMap) (slug anchorSlug : String)
    (d : Int) (n : String) (s : Step) (hnd : (keysOf m).Nodup)
    (h : getStep m n = some s) (hs : s.step_slug ≠ slug) :
    getStep (setEcdIfBlank m slug anchorSlug d) n = some s :=
  keep_slug_setEcdFromDateIfBlank m slug _ d n s hnd h hs

theorem keep_kickoffPass (m : StepMap) (n : String) (s : Step)
    (hnd : (keysOf m).Nodup) (h : getStep m n = some s)
    (hk : jsIncludes s.step_slug "kickoff" = false) :
    getStep (kickoffPass m) n = some s := by
  unfold kickoffPass
  split
  · exact h
  · next k hkn =>
    obtain ⟨s0, hg0, hk0⟩ := kickoffName_get m k hnd hkn
    have hn : n ≠ k := by
      intro hn
      subst hn
      rw [h] at hg0
      injection hg0 with hg0
      rw [hg0] at hk
      rw [hk0] at hk
      exact Bool.true_eq_false.mp hk
    rw [getStep_modifyStep_ne m k n _ hn]
    exact h

theorem keep_goRule (m : StepMap) (n : String) (s : Step)
    (hnd : (keysOf m).Nodup) (h : getStep m n = some s)
    (hs : s.step_slug ≠ "go_onsite_have_interview") :
    getStep (goRule m) n = some s := by
  unfold goRule
  split
  · exact h
  · next goName hgn =>
    split
    · exact h
    · split
      · obtain ⟨s0, hg0, hslug0⟩ := findSlug_get m _ goName hnd hgn
        have hn : n ≠ goName := by
          intro hn
          subst hn
          rw [h] at hg0
          injection hg0 with hg0
          rw [hg0] at hs
          exact hs hslug0
        rw [getStep_modifyStep_ne m goName n _ hn]
        exact h
      · exact keep_slug_setEcdIfBlank m _ _ _ n s hnd h hs

theorem keep_reviewSraRule (m : StepMap) (n : String) (s : Step)
    (h : getStep m n = some s) (hE : jsTrim s.ECD ≠ "") :
    getStep (reviewSraRule m) n = some s := by
  unfold reviewSraRule
  split
  · exact h
  · next rn hrn =>
    split
    · exact h
    · next review hrev =>
      split
      · exact h
      · next hb =>
        have hn : n ≠ rn := by
          intro hn
          subst hn
          rw [h] at hrev
          injection hrev with hrev
          rw [hrev] at hE
          exact absurd hE hb
        split
        · rw [getStep_modifyStep_ne m rn n _ hn]
          exact h
        · split
          · exact h
          · rw [getStep_modifyStep_ne m rn n _ hn]
            exact h

theorem keep_presentSraRule (m : StepMap) (n : String) (s : Step)
    (h : getStep m n = some s) (hE : jsTrim s.ECD ≠ "") :
    getStep (presentSraRule m) n = some s := by
  unfold presentSraRule
  split
  · exact h
  · next pn hpn =>
    split
    · exact h
    · next present hpre =>
      split
      · exact h
      · next hb =>
        have hn : n ≠ pn := by
          intro hn
          subst hn
          rw [h] at hpre
          injection hpre with hpre
          rw [hpre] at hE
          exact absurd hE hb
        split
        · rw [getStep_modifyStep_ne m pn n _ hn]
          exact h
        · split
          · exact h
          · rw [getStep_modifyStep_ne m pn n _ hn]
            exact h

theorem keep_scansRule (m : StepMap) (n : String) (s : Step)
    (h : getStep m n = some s) (hE : jsTrim s.ECD ≠ "") :
    getStep (scansRule m) n = some s := by
  unfold scansRule
  split
  · exact h
  · split
    · exact h
    · split
      · exact h
      · split
        · exact keep_setEcdFromDateIfBlank m _ _ _ n s h hE
        · exact keep_setEcdFromDateIfBlank m _ _ _ n s h hE

theorem keep_compileRule (m : StepMap) (pAcd sEcd : Option Int) (n : String)
    (s : Step) (hnd : (keysOf m).Nodup) (h : getStep m n = some s)
    (hs : s.step_slug ≠ "compile_report") :
    getStep (compileRule m pAcd sEcd) n = some s := by
  unfold compileRule
  split
  · exact h
  · next cn hcn =>
    split
    · obtain ⟨s0, hg0, hslug0⟩ := findSlug_get m _ cn hnd hcn
      have hn : n ≠ cn := by
        intro hn
        subst hn
        rw [h] at hg0
        injection hg0 with hg0
        rw [hg0] at hs
        exact hs hslug0
      rw [getStep_modifyStep_ne m cn n _ hn]
      exact h
    · exact keep_slug_setEcdFromDateIfBlank m _ _ _ n s hnd h hs

theorem keep_accessRule (m : StepMap) (pAcd sEcd : Option Int) (n : String)
    (s : Step) (hnd : (keysOf m).Nodup) (h : getStep m n = some s)
    (hs : s.step_slug ≠ "access_removed") :
    getStep (accessRule m pAcd sEcd) n = some s := by
  unfold accessRule
  split
  · exact h
  · next an han =>
    split
    · obtain ⟨s0, hg0, hslug0⟩ := findSlug_get m _ an hnd han
      have hn : n ≠ an := by
        intro hn
        subst hn
        rw [h] at hg0
        injection hg0 with hg0
        rw [hg0] at hs
        exact hs hslug0
      rw [getStep_modifyStep_ne m an n _ hn]
      exact h
    · exact keep_slug_setEcdFromDateIfBlank m _ _ _ n s hnd h hs

theorem keep_scheduleNvaRule (m : StepMap) (sAcd sEcd : Option Int) (n : String)
    (s : Step) (hnd : (keysOf m).Nodup) (h : getStep m n = some s)
    (hc : jsTrim s.ECD ≠ "" ∨ s.step_slug ≠ "schedule_final_nva_report") :
    getStep (scheduleNvaRule m sAcd sEcd) n = some s := by
  unfold scheduleNvaRule
  have keep : ∀ (a : Option Int) (d : Int),
      getStep (setEcdFromDateIfBlank m "schedule_final_nva_report" a d) n = some s := by
    intro a d
    rcases hc with hE | hs
    · exact keep_setEcdFromDateIfBlank m _ _ _ n s h hE
    · exact keep_slug_setEcdFromDateIfBlank m _ _ _ n s hnd h hs
  split
  · exact h
  · split
    · exact keep _ _
    · exact keep _ _

theorem keep_presentNvaRule (m : StepMap) (pn : Option String)
    (pAcd sEcd : Option Int) (n : String) (s : Step)
    (hnd : (keysOf m).Nodup) (h : getStep m n = some s)
    (hs : s.step_slug ≠ "present_final_nva_report")
    (hpn : ∀ name, pn = some name → n ≠ name) :
    getStep (presentNvaRule m pn pAcd sEcd) n = some s := by
  unfold presentNvaRule
  split
  · exact h
  · next name =>
    split
    · rw [getStep_modifyStep_ne m name n _ (hpn name rfl)]
      exact h
    · exact keep_slug_setEcdFromDateIfBlank m _ _ _ n s hnd h hs

theorem keep_nvaLateRules (m : StepMap) (n : String) (s : Step)
    (hnd : (keysOf m).Nodup) (h : getStep m n = some s)
    (hsc : s.step_slug ≠ "compile_report")
    (hsa : s.step_slug ≠ "access_removed")
    (hsp : s.step_slug ≠ "present_final_nva_report")
    (hsch : jsTrim s.ECD ≠ "" ∨ s.step_slug ≠ "schedule_final_nva_report") :
    getStep (nvaLateRules m) n = some s := by
  have heq : nvaLateRules m =
      presentNvaRule
        (scheduleNvaRule
          (accessRule
            (compileRule m (slugAcdDate m "present_final_nva_report")
              (slugEcdDate m "scans_complete"))
            (slugAcdDate m "present_final_nva_report")
            (slugEcdDate m "scans_complete"))
          (slugAcdDate m "scans_complete") (slugEcdDate m "scans_complete"))
        (findStepNameBySlug m "present_final_nva_report")
        (slugAcdDate m "present_final_nva_report")
        (slugEcdDate m "scans_complete") := rfl
  rw [heq]
  have h1 : getStep (compileRule m (slugAcdDate m "present_final_nva_report")
      (slugEcdDate m "scans_complete")) n = some s :=
    keep_compileRule m _ _ n s hnd h hsc
  have hnd1 : (keysOf (compileRule m (slugAcdDate m "present_final_nva_report")
      (slugEcdDate m "scans_complete"))).Nodup := by
    rw [(midEvolves_compileRule m _ _).1]
    exact hnd
  have h2 : getStep (accessRule (compileRule m
      (slugAcdDate m "present_final_nva_report") (slugEcdDate m "scans_complete"))
      (slugAcdDate m "present_final_nva_report")
      (slugEcdDate m "scans_complete")) n = some s :=
    keep_accessRule _ _ _ n s hnd1 h1 hsa
  have hnd2 : (keysOf (accessRule (compileRule m
      (slugAcdDate m "present_final_nva_report") (slugEcdDate m "scans_complete"))
      (slugAcdDate m "present_final_nva_report")
      (slugEcdDate m "scans_complete"))).Nodup := by
    rw [(midEvolves_accessRule _ _ _).1]
    exact hnd1
  have h3 : getStep (scheduleNvaRule (accessRule (compileRule m
      (slugAcdDate m "present_final_nva_report") (slugEcdDate m "scans_complete"))
      (slugAcdDate m "present_final_nva_report") (slugEcdDate m "scans_complete"))
      (slugAcdDate m "scans_complete") (slugEcdDate m "scans_complete")) n = some s :=
    keep_scheduleNvaRule _ _ _ n s hnd2 h2 hsch
  have hnd3 : (keysOf (scheduleNvaRule (accessRule (compileRule m
      (slugAcdDate m "present_final_nva_report") (slugEcdDate m "scans_complete"))
      (slugAcdDate m "present_final_nva_report") (slugEcdDate m "scans_complete"))
      (slugAcdDate m "scans_complete") (slugEcdDate m "scans_complete"))).Nodup := by
    rw [(midEvolves_scheduleNvaRule _ _ _).1]
    exact hnd2
  refine keep_presentNvaRule _ _ _ _ n s hnd3 h3 hsp ?_
  intro name hname hn
  subst hn
  obtain ⟨s0, hg0, hslug0⟩ := findSlug_get m _ n hnd hname
  rw [h] at hg0
  injection hg0 with hg0
  rw [hg0] at hsp
  exact hsp hslug0

theorem keep_fallbackPass (m : StepMap) (ks : String)
    (offs : List (String × Int)) (n : String) (s : Step)
    (hnd : (keysOf m).Nodup) (h : getStep m n = some s)
    (hc : jsTrim s.ECD ≠ "" ∨ ∀ p ∈ offs, s.step_slug ≠ p.1) :
    getStep (fallbackPass m ks offs) n = some s := by
  induction offs generalizing m with
  | nil => exact h
  | cons p t ih =>
    have hstep : getStep
        (if explicitSlugs.contains p.1 then m
         else if ks ≠ "" then setEcdIfBlank m p.1 ks p.2 else m) n = some s := by
      by_cases h1 : explicitSlugs.contains p.1
      · simp only [if_pos h1]
        exact h
      · simp only [if_neg h1]
        by_cases h2 : ks ≠ ""
        · simp only [if_pos h2]
          rcases hc with hE | hs
          · exact keep_setEcdIfBlank m _ _ _ n s h hE
          · exact keep_slug_setEcdIfBlank m _ _ _ n s hnd h (hs p (by simp))
        · simp only [if_neg h2]
          exact h
    have hndstep : (keysOf
        (if explicitSlugs.contains p.1 then m
         else if ks ≠ "" then setEcdIfBlank m p.1 ks p.2 else m)).Nodup := by
      by_cases h1 : explicitSlugs.contains p.1
      · rw [if_pos h1]
        exact hnd
      · rw [if_neg h1]
        by_cases h2 : ks ≠ ""
        · rw [if_pos h2, (midEvolves_setEcdIfBlank m _ _ _).1]
          exact hnd
        · rw [if_neg h2]
          exact hnd
    have hc2 : jsTrim s.ECD ≠ "" ∨ ∀ q ∈ t, s.step_slug ≠ q.1 := by
      rcases hc with hE | hs
      · exact Or.inl hE
      · exact Or.inr fun q hq => hs q (List.mem_cons_of_mem p hq)
    exact ih _ hndstep hstep hc2

/-- The full mid-rule chain keeps untouched every binding that has a
non-blank ECD and is not a target of one of the unconditional overwrites. -/
theorem keep_midRules (m1 : StepMap) (ks : String) (offs : List (String × Int))
    (n : String) (s : Step) (hnd : (keysOf m1).Nodup)
    (h : getStep m1 n = some s) (hE : jsTrim s.ECD ≠ "")
    (hgo : s.step_slug ≠ "go_onsite_have_interview")
    (hsc : s.step_slug ≠ "compile_report")
    (hsa : s.step_slug ≠ "access_removed")
    (hsp : s.step_slug ≠ "present_final_nva_report") :
    getStep (midRules m1 ks offs) n = some s := by
  unfold midRules
  have nd : ∀ m2 : StepMap, MidEvolves m1 m2 → (keysOf m2).Nodup := by
    intro m2 hme
    rw [hme.1]
    exact hnd
  have h2 := keep_setEcdIfBlank m1 "receive_policies_and_procedures_baa"
    "sra_kickoff" 7 n s h hE
  have h3 := keep_setEcdIfBlank _ "review_policies_and_procedures_baa"
    "receive_policies_and_procedures_baa" 12 n s h2 hE
  have h4 := keep_setEcdIfBlank _ "schedule_onsite_remote_interview"
    "sra_kickoff" 14 n s h3 hE
  have h5 := keep_goRule _ n s
    (nd _ (midEvolves_trans (midEvolves_setEcdIfBlank _ _ _ _)
      (midEvolves_trans (midEvolves_setEcdIfBlank _ _ _ _)
        (midEvolves_setEcdIfBlank _ _ _ _)))) h4 hgo
  have h6 := keep_setEcdIfBlank _ "recieve_requested_follow_up_documentation"
    "go_onsite_have_interview" 14 n s h5 hE
  have h7 := keep_setEcdIfBlank _ "schedule_final_sra_report"
    "go_onsite_have_interview" 14 n s h6 hE
  have h8 := keep_reviewSraRule _ n s h7 hE
  have h9 := keep_presentSraRule _ n s h8 hE
  have h10 := keep_setEcdIfBlank _ "receive_credentials" "nva_kickoff" 7 n s h9 hE
  have h11 := keep_setEcdIfBlank _ "verify_access" "receive_credentials" 7 n s h10 hE
  have h12 := keep_scansRule _ n s h11 hE
  have h13 := keep_nvaLateRules _ n s
    (nd _ (midEvolves_trans (midEvolves_setEcdIfBlank _ _ _ _)
      (midEvolves_trans (midEvolves_setEcdIfBlank _ _ _ _)
        (midEvolves_trans (midEvolves_setEcdIfBlank _ _ _ _)
          (midEvolves_trans (midEvolves_goRule _)
            (midEvolves_trans (midEvolves_setEcdIfBlank _ _ _ _)
              (midEvolves_trans (midEvolves_setEcdIfBlank _ _ _ _)
                (midEvolves_trans (midEvolves_reviewSraRule _)
                  (midEvolves_trans (midEvolves_presentSraRule _)
                    (midEvolves_trans (midEvolves_setEcdIfBlank _ _ _ _)
                      (midEvolves_trans (midEvolves_setEcdIfBlank _ _ _ _)
                        (midEvolves_scansRule _)))))))))))) h12 hsc hsa hsp
    (Or.inl hE)
  exact keep_fallbackPass _ ks offs n s
    (nd _ (midEvolves_trans (midEvolves_setEcdIfBlank _ _ _ _)
      (midEvolves_trans (midEvolves_setEcdIfBlank _ _ _ _)
        (midEvolves_trans (midEvolves_setEcdIfBlank _ _ _ _)
          (midEvolves_trans (midEvolves_goRule _)
            (midEvolves_trans (midEvolves_setEcdIfBlank _ _ _ _)
              (midEvolves_trans (midEvolves_setEcdIfBlank _ _ _ _)
                (midEvolves_trans (midEvolves_reviewSraRule _)
                  (midEvolves_trans (midEvolves_presentSraRule _)
                    (midEvolves_trans (midEvolves_setEcdIfBlank _ _ _ _)
                      (midEvolves_trans (midEvolves_setEcdIfBlank _ _ _ _)
                        (midEvolves_trans (midEvolves_scansRule _)
                          (midEvolves_nvaLateRules _)))))))))))))
    h13 (Or.inl hE)

theorem keep_slug_reviewSraRule (m : StepMap) (n : String) (s : Step)
    (hnd : (keysOf m).Nodup) (h : getStep m n = some s)
    (hs : s.step_slug ≠ "review_sra") :
    getStep (reviewSraRule m) n = some s := by
  unfold reviewSraRule
  split
  · exact h
  · next rn hrn =>
    obtain ⟨s0, hg0, hslug0⟩ := findSlug_get m _ rn hnd hrn
    have hn : n ≠ rn := by
      intro hn
      subst hn
      rw [h] at hg0
      injection hg0 with hg0
      rw [hg0] at hs
      exact hs hslug0
    split
    · exact h
    · split
      · exact h
      · split
        · rw [getStep_modifyStep_ne m rn n _ hn]
          exact h
        · split
          · exact h
          · rw [getStep_modifyStep_ne m rn n _ hn]
            exact h

theorem keep_slug_presentSraRule (m : StepMap) (n : String) (s : Step)
    (hnd : (keysOf m).Nodup) (h : getStep m n = some s)
    (hs : s.step_slug ≠ "present_final_sra_report") :
    getStep (presentSraRule m) n = some s := by
  unfold presentSraRule
  split
  · exact h
  · next pn hpn =>
    obtain ⟨s0, hg0, hslug0⟩ := findSlug_get m _ pn hnd hpn
    have hn : n ≠ pn := by
      intro hn
      subst hn
      rw [h] at hg0
      injection hg0 with hg0
      rw [hg0] at hs
      exact hs hslug0
    split
    · exact h
    · split
      · exact h
      · split
        · rw [getStep_modifyStep_ne m pn n _ hn]
          exact h
        · split
          · exact h
          · rw [getStep_modifyStep_ne m pn n _ hn]
            exact h

theorem keep_slug_scansRule (m : StepMap) (n : String) (s : Step)
    (hnd : (keysOf m).Nodup) (h : getStep m n = some s)
    (hs : s.step_slug ≠ "scans_complete") :
    getStep (scansRule m) n = some s := by
  unfold scansRule
  split
  · exact h
  · split
    · exact h
    · split
      · exact h
      · split
        · exact keep_slug_setEcdFromDateIfBlank m _ _ _ n s hnd h hs
        · exact keep_slug_setEcdFromDateIfBlank m _ _ _ n s hnd h hs

/-- The mid-rule chain never touches a binding whose slug contains
"kickoff" and is not one of the offsets keys. -/
theorem keep_midRules_kickoff (m1 : StepMap) (ks : String)
    (offs : List (String × Int)) (n : String) (s : Step)
    (hnd : (keysOf m1).Nodup) (h : getStep m1 n = some s)
    (hkick : jsIncludes s.step_slug "kickoff" = true)
    (hoff : ∀ p ∈ offs, s.step_slug ≠ p.1) :
    getStep (midRules m1 ks offs) n = some s := by
  have hne : ∀ t : String, jsIncludes t "kickoff" = false → s.step_slug ≠ t := by
    intro t ht hst
    rw [hst, ht] at hkick
    exact Bool.false_ne_true hkick
  unfold midRules
  have nd : ∀ m2 : StepMap, MidEvolves m1 m2 → (keysOf m2).Nodup := by
    intro m2 hme
    rw [hme.1]
    exact hnd
  have me2 := midEvolves_setEcdIfBlank m1 "receive_policies_and_procedures_baa" "sra_kickoff" 7
  have h2 := keep_slug_setEcdIfBlank m1 "receive_policies_and_procedures_baa"
    "sra_kickoff" 7 n s hnd h (hne _ (by decide))
  have me3 := midEvolves_trans me2 (midEvolves_setEcdIfBlank _
    "review_policies_and_procedures_baa" "receive_policies_and_procedures_baa" 12)
  have h3 := keep_slug_setEcdIfBlank _ "review_policies_and_procedures_baa"
    "receive_policies_and_procedures_baa" 12 n s (nd _ me2) h2 (hne _ (by decide))
  have me4 := midEvolves_trans me3 (midEvolves_setEcdIfBlank _
    "schedule_onsite_remote_interview" "sra_kickoff" 14)
  have h4 := keep_slug_setEcdIfBlank _ "schedule_onsite_remote_interview"
    "sra_kickoff" 14 n s (nd _ me3) h3 (hne _ (by decide))
  have me5 := midEvolves_trans me4 (midEvolves_goRule _)
  have h5 := keep_goRule _ n s (nd _ me4) h4 (hne _ (by decide))
  have me6 := midEvolves_trans me5 (midEvolves_setEcdIfBlank _
    "recieve_requested_follow_up_documentation" "go_onsite_have_interview" 14)
  have h6 := keep_slug_setEcdIfBlank _ "recieve_requested_follow_up_documentation"
    "go_onsite_have_interview" 14 n s (nd _ me5) h5 (hne _ (by decide))
  have me7 := midEvolves_trans me6 (midEvolves_setEcdIfBlank _
    "schedule_final_sra_report" "go_onsite_have_interview" 14)
  have h7 := keep_slug_setEcdIfBlank _ "schedule_final_sra_report"
    "go_onsite_have_interview" 14 n s (nd _ me6) h6 (hne _ (by decide))
  have me8 := midEvolves_trans me7 (midEvolves_reviewSraRule _)
  have h8 := keep_slug_reviewSraRule _ n s (nd _ me7) h7 (hne _ (by decide))
  have me9 := midEvolves_trans me8 (midEvolves_presentSraRule _)
  have h9 := keep_slug_presentSraRule _ n s (nd _ me8) h8 (hne _ (by decide))
  have me10 := midEvolves_trans me9 (midEvolves_setEcdIfBlank _
    "receive_credentials" "nva_kickoff" 7)
  have h10 := keep_slug_setEcdIfBlank _ "receive_credentials" "nva_kickoff" 7
    n s (nd _ me9) h9 (hne _ (by decide))
  have me11 := midEvolves_trans me10 (midEvolves_setEcdIfBlank _
    "verify_access" "receive_credentials" 7)
  have h11 := keep_slug_setEcdIfBlank _ "verify_access" "receive_credentials" 7
    n s (nd _ me10) h10 (hne _ (by decide))
  have me12 := midEvolves_trans me11 (midEvolves_scansRule _)
  have h12 := keep_slug_scansRule _ n s (nd _ me11) h11 (hne _ (by decide))
  have me13 := midEvolves_trans me12 (midEvolves_nvaLateRules _)
  have h13 := keep_nvaLateRules _ n s (nd _ me12) h12 (hne _ (by decide))
    (hne _ (by decide)) (hne _ (by decide)) (Or.inr (hne _ (by decide)))
  exact keep_fallbackPass _ ks offs n s (nd _ me13) h13 (Or.inr hoff)

/-! ## The projection rules are the identity when no step carries a
parseable date: malformed input degrades to "leave blank". -/

theorem unp_get {m : StepMap} (hA : AllUnparseable m) {n : String} {s : Step}
    (h : getStep m n = some s) :
    parseMetricDate s.ACD = none ∧ parseMetricDate s.ECD = none :=
  hA (n, s) (getStep_mem m n s h)

theorem anchor_none {m : StepMap} (hA : AllUnparseable m) (slug : String) :
    anchorDateForSlug m slug = none := by
  unfold anchorDateForSlug
  split
  · rfl
  · split
    · rfl
    · next s hg =>
      obtain ⟨h1, h2⟩ := unp_get hA hg
      rw [h1, h2]

theorem slugAcd_none {m : StepMap} (hA : AllUnparseable m) (slug : String) :
    slugAcdDate m slug = none := by
  unfold slugAcdDate
  split
  · rfl
  · split
    · rfl
    · next s hg => exact (unp_get hA hg).1

theorem slugEcd_none {m : StepMap} (hA : AllUnparseable m) (slug : String) :
    slugEcdDate m slug = none := by
  unfold slugEcdDate
  split
  · rfl
  · split
    · rfl
    · next s hg => exact (unp_get hA hg).2

theorem setEcdFromDateIfBlank_anchorless (m : StepMap) (slug : String) (d : Int) :
    setEcdFromDateIfBlank m slug none d = m := by
  unfold setEcdFromDateIfBlank
  cases findStepNameBySlug m slug <;> rfl

theorem setEcdIfBlank_id {m : StepMap} (hA : AllUnparseable m)
    (slug anchorSlug : String) (d : Int) :
    setEcdIfBlank m slug anchorSlug d = m := by
  unfold setEcdIfBlank
  rw [anchor_none hA]
  exact setEcdFromDateIfBlank_anchorless m slug d

theorem goRule_id {m : StepMap} (hA : AllUnparseable m) : goRule m = m := by
  unfold goRule
  split
  · rfl
  · next goName hfind =>
    split
    · rfl
    · next goStep hget =>
      split
      · next goAcd hparse =>
        rw [(unp_get hA hget).1] at hparse
        exact absurd hparse (fun hh => Option.noConfusion hh)
      · exact setEcdIfBlank_id hA _ _ _

theorem reviewSraRule_id {m : StepMap} (hA : AllUnparseable m) :
    reviewSraRule m = m := by
  unfold reviewSraRule
  split
  · rfl
  · split
    · rfl
    · split
      · rfl
      · rw [slugAcd_none hA, anchor_none hA]

theorem reviewAnchorOf_none {m : StepMap} (hA : AllUnparseable m) :
    reviewAnchorOf m = none := by
  unfold reviewAnchorOf
  rw [slugAcd_none hA, slugEcd_none hA]

theorem presentSraRule_id {m : StepMap} (hA : AllUnparseable m) :
    presentSraRule m = m := by
  unfold presentSraRule
  split
  · rfl
  · next pn hfind =>
    split
    · rfl
    · next present hget =>
      split
      · rfl
      · rw [(unp_get hA hget).1, reviewAnchorOf_none hA]

theorem scansRule_id {m : StepMap} (hA : AllUnparseable m) : scansRule m = m := by
  unfold scansRule
  split
  · rfl
  · split
    · rfl
    · split
      · rfl
      · rw [slugAcd_none hA, slugAcd_none hA, anchor_none hA]
        exact setEcdFromDateIfBlank_anchorless m _ _

theorem compileRule_noneAcd (m : StepMap) :
    compileRule m none none = m := by
  unfold compileRule
  cases findStepNameBySlug m "compile_report" with
  | none => rfl
  | some cn => exact setEcdFromDateIfBlank_anchorless m _ _

theorem accessRule_noneAcd (m : StepMap) :
    accessRule m none none = m := by
  unfold accessRule
  cases findStepNameBySlug m "access_removed" with
  | none => rfl
  | some an => exact setEcdFromDateIfBlank_anchorless m _ _

theorem scheduleNvaRule_noneAcd (m : StepMap) :
    scheduleNvaRule m none none = m := by
  unfold scheduleNvaRule
  cases findStepNameBySlug m "schedule_final_nva_report" with
  | none => rfl
  | some _ => exact setEcdFromDateIfBlank_anchorless m _ _

theorem presentNvaRule_noneAcd (m : StepMap) (pn : Option String) :
    presentNvaRule m pn none none = m := by
  unfold presentNvaRule
  cases pn with
  | none => rfl
  | some name => exact setEcdFromDateIfBlank_anchorless m _ _

theorem nvaLateRules_id {m : StepMap} (hA : AllUnparseable m) :
    nvaLateRules m = m := by
  have heq : nvaLateRules m =
      presentNvaRule
        (scheduleNvaRule
          (accessRule
            (compileRule m (slugAcdDate m "present_final_nva_report")
              (slugEcdDate m "scans_complete"))
            (slugAcdDate m "present_final_nva_report")
            (slugEcdDate m "scans_complete"))
          (slugAcdDate m "scans_complete") (slugEcdDate m "scans_complete"))
        (findStepNameBySlug m "present_final_nva_report")
        (slugAcdDate m "present_final_nva_report")
        (slugEcdDate m "scans_complete") := rfl
  rw [heq, slugAcd_none hA, slugAcd_none hA, slugEcd_none hA,
    compileRule_noneAcd, accessRule_noneAcd, scheduleNvaRule_noneAcd,
    presentNvaRule_noneAcd]

theorem fallbackPass_id {m : StepMap} (hA : AllUnparseable m) (ks : String)
    (offs : List (String × Int)) : fallbackPass m ks offs = m := by
  induction offs with
  | nil => rfl
  | cons p t ih =>
    have hstep : (if explicitSlugs.contains p.1 then m
        else if ks ≠ "" then setEcdIfBlank m p.1 ks p.2 else m) = m := by
      by_cases h1 : explicitSlugs.contains p.1
      · rw [if_pos h1]
      · rw [if_neg h1]
        by_cases h2 : ks ≠ ""
        · rw [if_pos h2]
          exact setEcdIfBlank_id hA _ _ _
        · rw [if_neg h2]
    show fallbackPass (if explicitSlugs.contains p.1 then m
      else if ks ≠ "" then setEcdIfBlank m p.1 ks p.2 else m) ks t = m
    rw [hstep]
    exact ih

theorem midRules_id {m : StepMap} (hA : AllUnparseable m) (ks : String)
    (offs : List (String × Int)) : midRules m ks offs = m := by
  rw [show midRules m ks offs =
    fallbackPass
      (nvaLateRules
        (scansRule
          (setEcdIfBlank
            (setEcdIfBlank
              (presentSraRule
                (reviewSraRule
                  (setEcdIfBlank
                    (setEcdIfBlank
                      (goRule
                        (setEcdIfBlank
                          (setEcdIfBlank
                            (setEcdIfBlank m
                              "receive_policies_and_procedures_baa" "sra_kickoff" 7)
                            "review_policies_and_procedures_baa"
                            "receive_policies_and_procedures_baa" 12)
                          "schedule_onsite_remote_interview" "sra_kickoff" 14))
                      "recieve_requested_follow_up_documentation"
                      "go_onsite_have_interview" 14)
                    "schedule_final_sra_report" "go_onsite_have_interview" 14)))
              "receive_credentials" "nva_kickoff" 7)
            "verify_access" "receive_credentials" 7)))
      ks offs from rfl]
  rw [setEcdIfBlank_id hA, setEcdIfBlank_id hA, setEcdIfBlank_id hA,
    goRule_id hA, setEcdIfBlank_id hA, setEcdIfBlank_id hA,
    reviewSraRule_id hA, presentSraRule_id hA, setEcdIfBlank_id hA,
    setEcdIfBlank_id hA, scansRule_id hA, nvaLateRules_id hA,
    fallbackPass_id hA]

theorem mem_modifyStep (m : StepMap) (n : String) (f : Step → Step)
    (p : String × Step) (hp : p ∈ modifyStep m n f) :
    ∃ q ∈ m, p = q ∨ p = (q.1, f q.2) := by
  induction m with
  | nil => simp [modifyStep] at hp
  | cons h0 t ih =>
    obtain ⟨k, v⟩ := h0
    by_cases hk : k = n
    · rw [modifyStep, if_pos hk] at hp
      rcases List.mem_cons.mp hp with heq | hmem
      · exact ⟨(k, v), List.mem_cons_self _ _, Or.inr (by rw [heq])⟩
      · exact ⟨p, List.mem_cons_of_mem _ hmem, Or.inl rfl⟩
    · rw [modifyStep, if_neg hk] at hp
      rcases List.mem_cons.mp hp with heq | hmem
      · exact ⟨(k, v), List.mem_cons_self _ _, Or.inl heq⟩
      · obtain ⟨q, hq, hor⟩ := ih hmem
        exact ⟨q, List.mem_cons_of_mem _ hq, hor⟩

theorem parseMetricDate_empty : parseMetricDate "" = none := by decide

theorem allUnparseable_kickoffPass {m : StepMap} (hA : AllUnparseable m) :
    AllUnparseable (kickoffPass m) := by
  unfold kickoffPass
  split
  · exact hA
  · intro p hp
    obtain ⟨q, hq, hor⟩ := mem_modifyStep m _ _ p hp
    obtain ⟨hqa, hqe⟩ := hA q hq
    rcases hor with h1 | h1
    · rw [h1]
      exact ⟨hqa, hqe⟩
    · rw [h1]
      refine ⟨hqa, ?_⟩
      show parseMetricDate (jsOr q.2.ACD "") = none
      unfold jsOr
      by_cases hz : q.2.ACD = ""
      · rw [if_pos hz]
        exact parseMetricDate_empty
      · rw [if_neg hz]
        exact hqa

/-! ## Whole-engine packaging lemmas -/

theorem keysOf_addEcdAcdFields (m0 : StepMap) (offsets : List (String × Int))
    (today : Int) :
    keysOf (addEcdAcdFields m0 offsets today) = keysOf m0 := by
  unfold addEcdAcdFields
  rw [keysOf_statusPass, (midEvolves_midRules _ _ _).1, keysOf_kickoffPass]

theorem statusUpdate_ACD (s : Step) (t : Int) : (statusUpdate s t).ACD = s.ACD := rfl

theorem statusUpdate_ECD (s : Step) (t : Int) : (statusUpdate s t).ECD = s.ECD := rfl

theorem statusUpdate_slug (s : Step) (t : Int) :
    (statusUpdate s t).step_slug = s.step_slug := rfl

theorem statusUpdate_editable (s : Step) (t : Int) :
    (statusUpdate s t).ecd.editable =
      if jsIncludes s.step_slug "kickoff" then s.ecd.editable else true := rfl

/-- Through the whole projection, every binding keeps its ACD and slug. -/
theorem addEcd_acd_slug (m0 : StepMap) (offsets : List (String × Int))
    (today : Int) (n : String) (s : Step) (h : getStep m0 n = some s) :
    ∃ s2, getStep (addEcdAcdFields m0 offsets today) n = some s2 ∧
      s2.ACD = s.ACD ∧ s2.step_slug = s.step_slug := by
  obtain ⟨s1, hg1, hcase⟩ := kickoffPass_get m0 n s h
  obtain ⟨s14, hg14, he14⟩ :=
    (midEvolves_midRules (kickoffPass m0) (kickoffSlugOf m0) offsets).2 n s1 hg1
  have ha14 : s14.ACD = s1.ACD := by
    rw [he14]
  have hs14 : s14.step_slug = s1.step_slug := by
    rw [he14]
  have ha1 : s1.ACD = s.ACD := by
    rcases hcase with h1 | h1
    · rw [h1]
    · rw [h1]
      rfl
  have hs1 : s1.step_slug = s.step_slug := by
    rcases hcase with h1 | h1
    · rw [h1]
    · rw [h1]
      rfl
  refine ⟨statusUpdate s14 today, ?_, ?_, ?_⟩
  · unfold addEcdAcdFields
    rw [getStep_statusPass, hg14]
    rfl
  · rw [statusUpdate_ACD, ha14, ha1]
  · rw [statusUpdate_slug, hs14, hs1]

/-! ## Stable sort: orderSteps is a permutation and preserves lookups -/

theorem stableInsert_perm (le : String × Step → String × Step → Bool)
    (x : String × Step) (l : StepMap) :
    List.Perm (stableInsert le x l) (x :: l) := by
  induction l with
  | nil => exact List.Perm.refl _
  | cons h t ih =>
    unfold stableInsert
    by_cases h1 : le h x && !le x h
    · rw [if_pos h1]
      exact (ih.cons h).trans (List.Perm.swap x h t)
    · rw [if_neg h1]
      by_cases h2 : le h x && le x h
      · rw [if_pos h2]
        exact (ih.cons h).trans (List.Perm.swap x h t)
      · rw [if_neg h2]

theorem stableSort_perm (le : String × Step → String × Step → Bool) (l : StepMap) :
    List.Perm (stableSort le l) l := by
  induction l with
  | nil => exact List.Perm.refl _
  | cons h t ih =>
    unfold stableSort
    exact (stableInsert_perm le h (stableSort le t)).trans (ih.cons h)

theorem getStep_perm (m m' : StepMap) (hperm : List.Perm m m')
    (hnd : (keysOf m).Nodup) (n : String) : getStep m' n = getStep m n := by
  have hkeys : List.Perm (keysOf m) (keysOf m') := hperm.map Prod.fst
  have hnd' : (keysOf m').Nodup := hkeys.nodup_iff.mp hnd
  cases h : getStep m n with
  | none =>
    rw [getStep_eq_none_iff] at h
    rw [getStep_eq_none_iff]
    intro hmem
    exact h (hkeys.mem_iff.mpr hmem)
  | some s =>
    exact getStep_of_mem_nodup m' n s hnd' (hperm.mem_iff.mp (getStep_mem m n s h))

theorem getStep_orderSteps (m : StepMap) (ord : List String)
    (hnd : (keysOf m).Nodup) (n : String) :
    getStep (orderSteps m ord) n = getStep m n :=
  getStep_perm m (orderSteps m ord) (stableSort_perm _ m).symm hnd n

/-! ## Bucketing produces maps with distinct display-name keys -/

theorem nodup_bucketUpsert (m : StepMap) (name : String) (fresh : Step)
    (upd : Step → Step) (hnd : (keysOf m).Nodup) :
    (keysOf (bucketUpsert m name fresh upd)).Nodup := by
  unfold bucketUpsert
  cases h : getStep m name with
  | some s =>
    rw [keysOf_modifyStep]
    exact hnd
  | none =>
    have hnotin : name ∉ keysOf m := (getStep_eq_none_iff m name).mp h
    show (keysOf (m ++ [(name, upd fresh)])).Nodup
    unfold keysOf
    rw [List.map_append]
    rw [List.nodup_append]
    refine ⟨hnd, List.nodup_singleton _, ?_⟩
    intro a ha hb
    simp only [List.map_cons, List.map_nil, List.mem_singleton] at hb
    rw [hb] at ha
    exact hnotin ha

theorem nodup_bucketOne (location clientName : String) (acc : StepMap × StepMap)
    (pair : String × String) (h1 : (keysOf acc.1).Nodup)
    (h2 : (keysOf acc.2).Nodup) :
    (keysOf (bucketOne location clientName acc pair).1).Nodup ∧
      (keysOf (bucketOne location clientName acc pair).2).Nodup := by
  unfold bucketOne
  split
  · exact ⟨h1, h2⟩
  · split
    · exact ⟨h1, h2⟩
    · split
      · exact ⟨nodup_bucketUpsert _ _ _ _ h1, h2⟩
      · exact ⟨h1, nodup_bucketUpsert _ _ _ _ h2⟩

theorem keysOf_alignPresent (nsra nnva : StepMap) (today : Int) :
    keysOf (alignPresent nsra nnva today) = keysOf nnva := by
  unfold alignPresent
  split
  · split
    · exact keysOf_modifyStep _ _ _
    · rfl
  · rfl

/-- alignPresent preserves the ACD and slug of every binding. -/
theorem alignPresent_acd_slug (nsra nnva : StepMap) (today : Int) (n : String)
    (s : Step) (h : getStep nnva n = some s) :
    ∃ s2, getStep (alignPresent nsra nnva today) n = some s2 ∧
      s2.ACD = s.ACD ∧ s2.step_slug = s.step_slug := by
  unfold alignPresent
  split
  · next sp np hsp hnp =>
    split
    · by_cases hn : n = np
      · subst hn
        rw [getStep_modifyStep_self, h]
        exact ⟨_, rfl, rfl, rfl⟩
      · rw [getStep_modifyStep_ne _ np n _ hn, h]
        exact ⟨s, rfl, rfl, rfl⟩
    · exact ⟨s, h, rfl, rfl⟩
  · exact ⟨s, h, rfl, rfl⟩

theorem nodup_bucketSteps (metrics : List (String × String))
    (location clientName : String) :
    (keysOf (bucketSteps metrics location clientName).1).Nodup ∧
      (keysOf (bucketSteps metrics location clientName).2).Nodup := by
  unfold bucketSteps
  have main : ∀ (l : List (String × String)) (acc : StepMap × StepMap),
      (keysOf acc.1).Nodup → (keysOf acc.2).Nodup →
      (keysOf (l.foldl (bucketOne location clientName) acc).1).Nodup ∧
        (keysOf (l.foldl (bucketOne location clientName) acc).2).Nodup := by
    intro l
    induction l with
    | nil => exact fun acc h1 h2 => ⟨h1, h2⟩
    | cons p t ih =>
      intro acc h1 h2
      obtain ⟨g1, g2⟩ := nodup_bucketOne location clientName acc p h1 h2
      exact ih _ g1 g2
  exact main metrics ([], []) List.nodup_nil List.nodup_nil

/-! ## Claim C3: the status classifier -/

/-- C3: the status classifier yields exactly one of the five display states
by the stated priority: a non-empty ACD gives Completed on a kickoff and On
Track otherwise; a kickoff without ACD, or a non-kickoff with neither ECD
nor ACD, gives Not Started; otherwise, when the ECD parses to the day count
e and diffDays = e - today on midnight-truncated dates, a negative diff
gives Roadblock/Overage, a diff between zero and three gives Potential
Roadblock, and a larger diff gives On Track. -/
theorem claim_C3_status_classifier (s : Step) (today : Int) :
    (s.ACD ≠ "" → s.isKickoff = true → computeStepStatus s today = "Completed") ∧
    (s.ACD ≠ "" → s.isKickoff = false → computeStepStatus s today = "On Track") ∧
    (s.ACD = "" → s.isKickoff = true → computeStepStatus s today = "Not Started") ∧
    (s.ACD = "" → s.isKickoff = false → s.ECD = "" →
      computeStepStatus s today = "Not Started") ∧
    (∀ e : Int, s.ACD = "" → s.isKickoff = false → parseUSDate s.ECD = some e →
      ((e - today < 0 → computeStepStatus s today = "Roadblock/Overage") ∧
       (0 ≤ e - today → e - today ≤ 3 →
         computeStepStatus s today = "Potential Roadblock") ∧
       (3 < e - today → computeStepStatus s today = "On Track"))) := by
  have hempty : parseUSDate "" = none := by decide
  refine ⟨fun h1 h2 => ?_, fun h1 h2 => ?_, fun h1 h2 => ?_,
    fun h1 h2 h3 => ?_, fun e h1 h2 hp => ?_⟩
  · simp [computeStepStatus, h1, h2]
  · simp [computeStepStatus, h1, h2]
  · simp [computeStepStatus, h1, h2]
  · simp [computeStepStatus, h1, h2, h3]
  · have hne : s.ECD ≠ "" := by
      intro hz
      rw [hz, hempty] at hp
      exact Option.noConfusion hp
    refine ⟨fun hd => ?_, fun hd1 hd2 => ?_, fun hd => ?_⟩
    · simp only [computeStepStatus, h1, h2, hne]
      simp only [ne_eq, not_true_eq_false, if_false, Bool.false_eq_true,
        if_neg hne]
      rw [hp]
      simp only [if_pos hd]
    · simp only [computeStepStatus, h1, h2, hne]
      simp only [ne_eq, not_true_eq_false, if_false, Bool.false_eq_true,
        if_neg hne]
      rw [hp]
      show (if e - today < 0 then "Roadblock/Overage"
        else if e - today ≤ 3 then "Potential Roadblock" else "On Track") = _
      rw [if_neg (by omega), if_pos (by omega)]
    · simp only [computeStepStatus, h1, h2, hne]
      simp only [ne_eq, not_true_eq_false, if_false, Bool.false_eq_true,
        if_neg hne]
      rw [hp]
      show (if e - today < 0 then "Roadblock/Overage"
        else if e - today ≤ 3 then "Potential Roadblock" else "On Track") = _
      rw [if_neg (by omega), if_neg (by omega)]

/-- Witness for C3: a non-kickoff step with ECD three days out is a
Potential Roadblock. -/
theorem claim_C3_witness : computeStepStatus stepC3 dayC3 = "Potential Roadblock" := by
  have h := (claim_C3_status_classifier stepC3 dayC3).2.2.2.2
    (daysFromCivil 2025 1 11) (by decide) (by decide) (by decide)
  exact h.2.1 (by decide) (by decide)

/-! ## Claim C4: the end-to-end scenario -/

/-- C4 counterexample: on the literal three-key metrics map of the scenario,
the assembled dashboard contains no receive_policies_and_procedures_baa step
at all (steps exist only for slugs mentioned by some metric key), so the
claimed ECD assertion about that step is false; the other two scenario
assertions do hold. -/
theorem claim_C4_counterexample :
    findStepNameBySlug (buildDashboard rowC4 dayC4).sra_steps
        "receive_policies_and_procedures_baa" = none ∧
    ((getStep (buildDashboard rowC4 dayC4).sra_steps "SRA Kickoff").map
        fun s => s.status) = some "Completed" ∧
    (buildDashboard rowC4 dayC4).show_nva = false := by
  decide

/-- C4 amended: with the metrics map additionally carrying a (blank) key for
the receive step, the scenario holds: the kickoff is Completed, the receive
step projects to 01/13/2025 with status On Track, and show_nva is false. -/
theorem claim_C4_amended :
    ((getStep (buildDashboard rowC4b dayC4).sra_steps "SRA Kickoff").map
        fun s => s.status) = some "Completed" ∧
    ((getStep (buildDashboard rowC4b dayC4).sra_steps
        "Receive Policies and Procedures / BAA").map
        fun s => (s.step_slug, s.ECD, s.status)) =
      some ("receive_policies_and_procedures_baa", "01/13/2025", "On Track") ∧
    (buildDashboard rowC4b dayC4).show_nva = false := by
  decide

/-! ## Claim C9: determinism of the assembler -/

/-- C9: buildDashboard reads only the metrics map, the task name and the
task status of its row; two rows agreeing on those three fields produce
the same dashboard for the same today.  The input row (and its metrics) is
consumed immutably: the embedding is a pure function of those fields. -/
theorem claim_C9_deterministic (r r' : Row) (today : Int)
    (h1 : r.metrics = r'.metrics) (h2 : r.task_name = r'.task_name)
    (h3 : r.task_status = r'.task_status) :
    buildDashboard r today = buildDashboard r' today := by
  unfold buildDashboard
  rw [h1, h2, h3]

/-- Witness for C9 at two concrete rows differing in sf_id, task_id and
task_url. -/
theorem claim_C9_witness : buildDashboard rowC9a dayC2 = buildDashboard rowC9b dayC2 :=
  claim_C9_deterministic rowC9a rowC9b dayC2 rfl rfl rfl

/-! ## Claim C10: the strict US date parser -/

/-- C10 counterexample: parseUSDate accepts "02/30/2025" — the JS Date
constructor rolls the out-of-range day over to March 2, 2025 instead of
producing an invalid date, so the parser does not return null on a
calendar-invalid input. -/
theorem claim_C10_counterexample :
    parseUSDate "02/30/2025" = some (daysFromCivil 2025 3 2) ∧
    parseUSDate "02/30/2025" ≠ none := by
  decide

/-- C10 amended: parseUSDate never raises and returns null whenever the
trimmed input fails the anchored M/D/YYYY pattern; a matching input is
passed to the JS Date constructor, which rolls over out-of-range month and
day components instead of rejecting them (02/30/2025 is read as 03/02/2025
and 13/10/2025 as 01/10/2026). -/
theorem claim_C10_amended :
    (∀ text : String, anchoredUS (jsTrim text).data = none →
      parseUSDate text = none) ∧
    parseUSDate "02/30/2025" = some (daysFromCivil 2025 3 2) ∧
    parseUSDate "13/10/2025" = some (daysFromCivil 2026 1 10) := by
  refine ⟨fun text h => ?_, by decide, by decide⟩
  show (match anchoredUS (jsTrim text).data with
    | none => none
    | some (mo, da, yr) =>
      jsMakeDate (Int.ofNat yr) (Int.ofNat mo - 1) (Int.ofNat da)) = none
  rw [h]

/-- Witness for C10 on a non-matching input. -/
theorem claim_C10_witness : parseUSDate "2025-01-06" = none :=
  claim_C10_amended.1 "2025-01-06" (by decide)

/-! ## Claim C1: the engine write discipline -/

/-- C1 counterexample: the compile_report rule overwrites a non-blank ECD.
On a map whose compile_report step carries the manual ECD 02/02/2025 and
whose present_final_nva_report step has the ACD 01/06/2025, the engine
replaces the non-empty compile_report ECD by 01/03/2025 (the ACD minus one
day, shifted back to Friday), refuting the blank-only write discipline. -/
theorem claim_C1_counterexample :
    ((getStep mapC1 "Compile Report").map fun s => s.ECD) = some "02/02/2025" ∧
    ((getStep (addEcdAcdFields mapC1 [] 0) "Compile Report").map
        fun s => s.ECD) = some "01/03/2025" ∧
    ("01/03/2025" : String) ≠ "02/02/2025" := by
  decide

/-- C1 amended: the engine never modifies any binding's ACD; and every rule
writes a step's ECD only when it is blank, except the kickoff forcing and
the go_onsite_have_interview / compile_report / access_removed /
present_final_nva_report rules, which can overwrite: a binding with a
non-blank ECD whose slug does not contain "kickoff" and is none of those
four slugs keeps its ECD verbatim. -/
theorem claim_C1_amended (m0 : StepMap) (offsets : List (String × Int))
    (today : Int) (hnd : (keysOf m0).Nodup) (n : String) (s : Step)
    (h : getStep m0 n = some s) :
    ∃ s2, getStep (addEcdAcdFields m0 offsets today) n = some s2 ∧
      s2.ACD = s.ACD ∧
      (jsTrim s.ECD ≠ "" ∧ jsIncludes s.step_slug "kickoff" = false ∧
        s.step_slug ∉ ["go_onsite_have_interview", "compile_report",
          "access_removed", "present_final_nva_report"] →
        s2.ECD = s.ECD) := by
  obtain ⟨s2, hg2, ha2, _⟩ := addEcd_acd_slug m0 offsets today n s h
  refine ⟨s2, hg2, ha2, ?_⟩
  rintro ⟨hE, hkick, hmem⟩
  have hgo : s.step_slug ≠ "go_onsite_have_interview" := by
    intro hh
    exact hmem (by rw [hh]; decide)
  have hsc : s.step_slug ≠ "compile_report" := by
    intro hh
    exact hmem (by rw [hh]; decide)
  have hsa : s.step_slug ≠ "access_removed" := by
    intro hh
    exact hmem (by rw [hh]; decide)
  have hsp : s.step_slug ≠ "present_final_nva_report" := by
    intro hh
    exact hmem (by rw [hh]; decide)
  have hk1 : getStep (kickoffPass m0) n = some s :=
    keep_kickoffPass m0 n s hnd h hkick
  have hnd1 : (keysOf (kickoffPass m0)).Nodup := by
    rw [keysOf_kickoffPass]
    exact hnd
  have hmid : getStep (midRules (kickoffPass m0) (kickoffSlugOf m0) offsets) n
      = some s :=
    keep_midRules (kickoffPass m0) (kickoffSlugOf m0) offsets n s hnd1 hk1
      hE hgo hsc hsa hsp
  have hout : getStep (addEcdAcdFields m0 offsets today) n
      = some (statusUpdate s today) := by
    unfold addEcdAcdFields
    rw [getStep_statusPass, hmid]
    rfl
  rw [hout] at hg2
  injection hg2 with hg2
  rw [← hg2, statusUpdate_ECD]

/-- Witness for C1 at a concrete one-step map with a non-blank review_sra
ECD, which survives the engine verbatim. -/
theorem claim_C1_witness :
    ∃ s2, getStep (addEcdAcdFields mapW1 [] 0) "Review SRA" = some s2 ∧
      s2.ACD = stepW1.ACD ∧ s2.ECD = stepW1.ECD := by
  obtain ⟨s2, hg, ha, he⟩ :=
    claim_C1_amended mapW1 [] 0 (by decide) "Review SRA" stepW1 (by decide)
  exact ⟨s2, hg, ha, he ⟨by decide, by decide, by decide⟩⟩

/-! ## Claim C8: malformed input degrades to blank -/

/-- C8: when no binding of the map carries a parseable ACD or ECD (missing
or malformed dates), the engine completes and writes no projected date at
all: every binding keeps its ACD, and its ECD is either kept verbatim or —
for the forced kickoff — set to the (unparseable) ACD string or blank.  In
particular every rule whose anchor is missing or unparseable leaves the
dependent ECD blank rather than failing. -/
theorem claim_C8_malformed_safe (m0 : StepMap) (offsets : List (String × Int))
    (today : Int) (n : String) (s : Step)
    (hA : ∀ p ∈ m0, parseMetricDate p.2.ACD = none ∧ parseMetricDate p.2.ECD = none)
    (h : getStep m0 n = some s) :
    ∃ s2, getStep (addEcdAcdFields m0 offsets today) n = some s2 ∧
      s2.ACD = s.ACD ∧ (s2.ECD = s.ECD ∨ s2.ECD = jsOr s.ACD "") := by
  have hA1 : AllUnparseable (kickoffPass m0) := allUnparseable_kickoffPass hA
  have heq : addEcdAcdFields m0 offsets today = statusPass (kickoffPass m0) today := by
    unfold addEcdAcdFields
    rw [midRules_id hA1]
  obtain ⟨s1, hg1, hcase⟩ := kickoffPass_get m0 n s h
  refine ⟨statusUpdate s1 today, ?_, ?_, ?_⟩
  · rw [heq, getStep_statusPass, hg1]
    rfl
  · rw [statusUpdate_ACD]
    rcases hcase with h1 | h1
    · rw [h1]
    · rw [h1]
      rfl
  · rw [statusUpdate_ECD]
    rcases hcase with h1 | h1
    · rw [h1]
      exact Or.inl rfl
    · rw [h1]
      exact Or.inr rfl

/-- Witness for C8 at a map whose only step has the unparseable dates
"n/a" and "soon", with a custom fallback offset in play. -/
theorem claim_C8_witness :
    ∃ s2, getStep (addEcdAcdFields mapW8 [("custom_step", 5)] 0) "Review SRA"
        = some s2 ∧
      s2.ACD = stepW8.ACD ∧ (s2.ECD = stepW8.ECD ∨ s2.ECD = jsOr stepW8.ACD "") :=
  claim_C8_malformed_safe mapW8 [("custom_step", 5)] 0 "Review SRA" stepW8
    (by decide) (by decide)

/-! ## Claim C6: kickoff forcing and the editable flags -/

/-- C6 counterexample: the forcing applies only to the first kickoff-slugged
step.  On a map with a second step whose slug also contains "kickoff" and
which carries a manual ECD and no ACD, the output leaves that ECD in place
(the claim demands blank) and leaves its ecd.editable flag true (the claim
demands false). -/
theorem claim_C6_counterexample :
    ((getStep (addEcdAcdFields mapC6 [] 0) "Extra Kickoff").map
        fun s => (s.ECD, s.ACD, s.ecd.editable)) =
      some ("05/05/2025", "", true) := by
  decide

/-- C6 amended: the FIRST step whose slug contains "kickoff" has its ECD
forced to its own ACD (blank when the ACD is blank, so a manual kickoff ECD
never survives) and its ecd.editable flag cleared, provided its slug is not
among the fallback offsets keys; any later kickoff-slugged step is left
untouched by the forcing.  Every non-kickoff step leaves the engine with
ecd.editable true. -/
theorem claim_C6_amended (m0 : StepMap) (offsets : List (String × Int))
    (today : Int) (hnd : (keysOf m0).Nodup) (k : String) (s : Step)
    (hk : kickoffNameOf m0 = some k) (hs : getStep m0 k = some s)
    (hoff : ∀ p ∈ offsets, s.step_slug ≠ p.1) :
    (∃ s2, getStep (addEcdAcdFields m0 offsets today) k = some s2 ∧
      s2.ECD = jsOr s.ACD "" ∧ s2.ecd.editable = false) ∧
    (∀ n t, getStep (addEcdAcdFields m0 offsets today) n = some t →
      jsIncludes t.step_slug "kickoff" = false → t.ecd.editable = true) := by
  constructor
  · obtain ⟨s0, hg0, hkick0⟩ := kickoffName_get m0 k hnd hk
    rw [hs] at hg0
    injection hg0 with hg0
    rw [← hg0] at hkick0
    have hkp : kickoffPass m0 = modifyStep m0 k kickoffUpd := by
      unfold kickoffPass
      rw [hk]
    have hg1 : getStep (kickoffPass m0) k = some (kickoffUpd s) := by
      rw [hkp, getStep_modifyStep_self, hs]
      rfl
    have hnd1 : (keysOf (kickoffPass m0)).Nodup := by
      rw [keysOf_kickoffPass]
      exact hnd
    have hmid : getStep (midRules (kickoffPass m0) (kickoffSlugOf m0) offsets) k
        = some (kickoffUpd s) :=
      keep_midRules_kickoff (kickoffPass m0) (kickoffSlugOf m0) offsets k
        (kickoffUpd s) hnd1 hg1 hkick0 hoff
    refine ⟨statusUpdate (kickoffUpd s) today, ?_, ?_, ?_⟩
    · unfold addEcdAcdFields
      rw [getStep_statusPass, hmid]
      rfl
    · rw [statusUpdate_ECD]
      rfl
    · rw [statusUpdate_editable,
        show (kickoffUpd s).step_slug = s.step_slug from rfl, hkick0]
      rfl
  · intro n t hget hkickf
    unfold addEcdAcdFields at hget
    rw [getStep_statusPass] at hget
    cases hv : getStep (midRules (kickoffPass m0) (kickoffSlugOf m0) offsets) n with
    | none =>
      rw [hv] at hget
      exact Option.noConfusion hget
    | some u =>
      rw [hv] at hget
      injection hget with hget
      rw [← hget, statusUpdate_slug] at hkickf
      rw [← hget, statusUpdate_editable, hkickf]
      rfl

/-- Witness for C6: a single kickoff with ACD 01/06/2025 and a manual ECD
02/02/2025; the output ECD is the ACD and the flag is cleared. -/
theorem claim_C6_witness :
    ∃ s2, getStep (addEcdAcdFields mapW6 [] 0) "SRA Kickoff" = some s2 ∧
      s2.ECD = jsOr stepW6.ACD "" ∧ s2.ecd.editable = false :=
  (claim_C6_amended mapW6 [] 0 (by decide) "SRA Kickoff" stepW6 (by decide)
    (by decide) (by intro p hp; cases hp)).1

/-! ## Claim C7: the review_sra rule -/

/-- Characterization of the review_sra rule on a map whose review step is
found and blank. -/
theorem reviewSraRule_eq (m : StepMap) (rn : String) (review : Step)
    (hfind : findStepNameBySlug m "review_sra" = some rn)
    (hget : getStep m rn = some review)
    (hblank : jsTrim review.ECD = "") :
    reviewSraRule m =
      match slugAcdDate m "present_final_sra_report" with
      | some pa => modifyStep m rn fun s =>
          { s with ECD := formatUSDate (shiftToFridayIfWeekend (pa - 1)) }
      | none =>
        match anchorDateForSlug m "go_onsite_have_interview" with
        | none => m
        | some goAnchor =>
          modifyStep m rn fun s =>
            { s with ECD := formatUSDate (reviewProposed m goAnchor) } := by
  unfold reviewSraRule
  split
  · next hne =>
    rw [hfind] at hne
    exact Option.noConfusion hne
  · next rn2 hfind2 =>
    rw [hfind] at hfind2
    injection hfind2 with hfind2
    subst hfind2
    split
    · next hget2 =>
      rw [hget] at hget2
      exact Option.noConfusion hget2
    · next review2 hget2 =>
      rw [hget] at hget2
      injection hget2 with hget2
      subst hget2
      split
      · next hb => exact absurd hblank hb
      · rfl

/-- C7: the review_sra rule, on a review step with a blank ECD: a parseable
present_final_sra_report ACD forces the ECD to that ACD minus one day,
weekend-shifted back to Friday; otherwise an anchor from
go_onsite_have_interview (ACD preferred over ECD) yields the anchor plus
fifteen days weekend-shifted forward, bumped to the next business day after
the later of the recieve_requested_follow_up_documentation and
schedule_final_sra_report ECDs whenever the candidate does not exceed it;
with no anchor at all the map — and hence the blank ECD — is unchanged. -/
theorem claim_C7_review_sra_rule (m : StepMap) (rn : String) (review : Step)
    (hfind : findStepNameBySlug m "review_sra" = some rn)
    (hget : getStep m rn = some review)
    (hblank : jsTrim review.ECD = "") :
    (∀ pa, slugAcdDate m "present_final_sra_report" = some pa →
      getStep (reviewSraRule m) rn =
        some { review with
          ECD := formatUSDate (shiftToFridayIfWeekend (pa - 1)) }) ∧
    (∀ g d1 d2, slugAcdDate m "present_final_sra_report" = none →
      anchorDateForSlug m "go_onsite_have_interview" = some g →
      slugEcdDate m "recieve_requested_follow_up_documentation" = some d1 →
      slugEcdDate m "schedule_final_sra_report" = some d2 →
      getStep (reviewSraRule m) rn =
        some { review with
          ECD := formatUSDate
            (if shiftToMondayIfWeekend (g + 15) ≤ max d1 d2
             then nextBusinessDay (max d1 d2)
             else shiftToMondayIfWeekend (g + 15)) }) ∧
    (slugAcdDate m "present_final_sra_report" = none →
      anchorDateForSlug m "go_onsite_have_interview" = none →
      reviewSraRule m = m) := by
  refine ⟨fun pa hpa => ?_, fun g d1 d2 hpa hg hd1 hd2 => ?_, fun hpa hga => ?_⟩
  · rw [reviewSraRule_eq m rn review hfind hget hblank, hpa]
    show getStep (modifyStep m rn fun s =>
      { s with ECD := formatUSDate (shiftToFridayIfWeekend (pa - 1)) }) rn = _
    rw [getStep_modifyStep_self, hget]
    rfl
  · rw [reviewSraRule_eq m rn review hfind hget hblank, hpa, hg]
    have hsib : reviewSiblings m = [d1, d2] := by
      unfold reviewSiblings
      rw [hd1, hd2]
      rfl
    have hw : (if d1 > d2 then d1 else d2) = max d1 d2 := by
      rcases le_or_lt d1 d2 with hle | hlt
      · rw [if_neg (not_lt.mpr hle), max_eq_right hle]
      · rw [if_pos hlt, max_eq_left (le_of_lt hlt)]
    have hlat : latestOf (reviewSiblings m) = some (max d1 d2) := by
      rw [hsib, show latestOf [d1, d2] = some (if d1 > d2 then d1 else d2) from rfl,
        hw]
    have hprop : reviewProposed m g =
        (if shiftToMondayIfWeekend (g + 15) ≤ max d1 d2
         then nextBusinessDay (max d1 d2)
         else shiftToMondayIfWeekend (g + 15)) := by
      unfold reviewProposed
      rw [hlat]
    show getStep (modifyStep m rn fun s =>
      { s with ECD := formatUSDate (reviewProposed m g) }) rn = _
    rw [getStep_modifyStep_self, hget, hprop]
    rfl
  · rw [reviewSraRule_eq m rn review hfind hget hblank, hpa, hga]

/-- Witness for C7 at a map whose present_final_sra_report ACD is the
Monday 01/06/2025: the review ECD becomes the preceding Friday. -/
theorem claim_C7_witness :
    getStep (reviewSraRule mapW7) "Review SRA" =
      some { stepW7 with
        ECD := formatUSDate (shiftToFridayIfWeekend (daysFromCivil 2025 1 6 - 1)) } :=
  (claim_C7_review_sra_rule mapW7 "Review SRA" stepW7 (by decide) (by decide)
    (by decide)).1 (daysFromCivil 2025 1 6) (by decide)

/-! ## Claims C2 and C5: cross-track coupling in the assembler -/

theorem buildDashboardAux_nva (metrics : List (String × String))
    (tn ts : String) (today : Int) :
    (buildDashboardAux metrics tn ts today).nva_steps =
      orderSteps
        (alignPresent
          (addEcdAcdFields
            (bucketSteps metrics
              (getMetric metrics ["project.remote_onsite", "project.location"]) tn).1
            sraOffsets today)
          (addEcdAcdFields
            (crossCopyKickoff
              (parseBool (getMetric metrics ["project.sra_enabled"]))
              (parseBool (getMetric metrics ["project.nva_enabled"]))
              (bucketSteps metrics
                (getMetric metrics ["project.remote_onsite", "project.location"]) tn).1
              (bucketSteps metrics
                (getMetric metrics ["project.remote_onsite", "project.location"]) tn).2)
            nvaOffsets today)
          today)
        nvaOrder := by
  simp only [buildDashboardAux]

theorem keysOf_crossCopyKickoff (a b : Bool) (sraSteps nvaSteps : StepMap) :
    keysOf (crossCopyKickoff a b sraSteps nvaSteps) = keysOf nvaSteps := by
  unfold crossCopyKickoff
  split
  · split
    · split
      · exact keysOf_modifyStep _ _ _
      · rfl
    · rfl
  · rfl

theorem crossCopyKickoff_effect (sraSteps nvaSteps : StepMap) (sk nk : String)
    (hsk : findStepNameBySlug sraSteps "sra_kickoff" = some sk)
    (hnk : findStepNameBySlug nvaSteps "nva_kickoff" = some nk)
    (ha : kickoffAcdOf sraSteps sk ≠ "") :
    crossCopyKickoff true true sraSteps nvaSteps =
      modifyStep nvaSteps nk fun s =>
        { s with ACD := kickoffAcdOf sraSteps sk } := by
  show (match findStepNameBySlug sraSteps "sra_kickoff",
      findStepNameBySlug nvaSteps "nva_kickoff" with
    | some sk, some nk =>
      if kickoffAcdOf sraSteps sk ≠ "" then
        modifyStep nvaSteps nk fun s => { s with ACD := kickoffAcdOf sraSteps sk }
      else nvaSteps
    | _, _ => nvaSteps) = _
  rw [hsk, hnk]
  show (if kickoffAcdOf sraSteps sk ≠ "" then
      modifyStep nvaSteps nk fun s => { s with ACD := kickoffAcdOf sraSteps sk }
    else nvaSteps) = _
  rw [if_pos ha]

theorem alignPresent_effect (nsra nnva : StepMap) (today : Int) (sp np : String)
    (s : Step)
    (hsp : findStepNameBySlug nsra "present_final_sra_report" = some sp)
    (hnp : findStepNameBySlug nnva "present_final_nva_report" = some np)
    (hns : getStep nnva np = some s)
    (he : presentEcdOf nsra sp ≠ "") :
    getStep (alignPresent nsra nnva today) np =
      some (alignUpd (presentEcdOf nsra sp) today s) := by
  unfold alignPresent
  split
  · next sp2 np2 hsp2 hnp2 =>
    rw [hsp] at hsp2
    injection hsp2 with hsp2
    subst hsp2
    rw [hnp] at hnp2
    injection hnp2 with hnp2
    subst hnp2
    rw [if_pos he, getStep_modifyStep_self, hns]
    rfl
  · next hcontr => exact absurd hnp (by intro hx; exact hcontr sp np hsp hx)

/-- C2 counterexample: with both tracks enabled and the SRA kickoff ACD
03/03/2025, an NVA kickoff that arrives with its own ACD 04/04/2025 has it
replaced by 03/03/2025 in the assembled dashboard, refuting the
"only when the NVA kickoff has no ACD" clause. -/
theorem claim_C2_counterexample :
    lookupStr rowC2.metrics "nva.nva_kickoff.date" = "04/04/2025" ∧
    ((getStep (buildDashboard rowC2 dayC2).nva_steps "NVA Kickoff").map
        fun s => s.ACD) = some "03/03/2025" ∧
    ("03/03/2025" : String) ≠ "04/04/2025" := by
  decide

/-- C2 amended: with both tracks enabled and a non-blank (trimmed) SRA
kickoff ACD, dashboard assembly copies that ACD onto the NVA kickoff step
unconditionally, replacing any ACD the NVA kickoff already had.  The copied
value survives projection and alignment into the output. -/
theorem claim_C2_amended (metrics : List (String × String)) (tn ts : String)
    (today : Int) (loc : String)
    (hloc : loc = getMetric metrics ["project.remote_onsite", "project.location"])
    (sk nk : String) (s : Step)
    (hshow : parseBool (getMetric metrics ["project.sra_enabled"]) = true)
    (hshn : parseBool (getMetric metrics ["project.nva_enabled"]) = true)
    (hsk : findStepNameBySlug (bucketSteps metrics loc tn).1 "sra_kickoff" = some sk)
    (hnk : findStepNameBySlug (bucketSteps metrics loc tn).2 "nva_kickoff" = some nk)
    (hns : getStep (bucketSteps metrics loc tn).2 nk = some s)
    (ha : kickoffAcdOf (bucketSteps metrics loc tn).1 sk ≠ "") :
    ∃ s2, getStep (buildDashboardAux metrics tn ts today).nva_steps nk = some s2 ∧
      s2.ACD = kickoffAcdOf (bucketSteps metrics loc tn).1 sk := by
  subst hloc
  have hcc : crossCopyKickoff
      (parseBool (getMetric metrics ["project.sra_enabled"]))
      (parseBool (getMetric metrics ["project.nva_enabled"]))
      (bucketSteps metrics
        (getMetric metrics ["project.remote_onsite", "project.location"]) tn).1
      (bucketSteps metrics
        (getMetric metrics ["project.remote_onsite", "project.location"]) tn).2 =
      modifyStep (bucketSteps metrics
        (getMetric metrics ["project.remote_onsite", "project.location"]) tn).2 nk
        (fun st => { st with ACD := kickoffAcdOf (bucketSteps metrics
          (getMetric metrics ["project.remote_onsite", "project.location"]) tn).1 sk }) := by
    rw [hshow, hshn]
    exact crossCopyKickoff_effect _ _ sk nk hsk hnk ha
  have hgcc : getStep (crossCopyKickoff
      (parseBool (getMetric metrics ["project.sra_enabled"]))
      (parseBool (getMetric metrics ["project.nva_enabled"]))
      (bucketSteps metrics
        (getMetric metrics ["project.remote_onsite", "project.location"]) tn).1
      (bucketSteps metrics
        (getMetric metrics ["project.remote_onsite", "project.location"]) tn).2) nk =
      some { s with ACD := kickoffAcdOf (bucketSteps metrics
        (getMetric metrics ["project.remote_onsite", "project.location"]) tn).1 sk } := by
    rw [hcc, getStep_modifyStep_self, hns]
    rfl
  obtain ⟨s2, hg2, ha2, _⟩ := addEcd_acd_slug _ nvaOffsets today nk _ hgcc
  obtain ⟨s3, hg3, ha3, _⟩ := alignPresent_acd_slug
    (addEcdAcdFields (bucketSteps metrics
      (getMetric metrics ["project.remote_onsite", "project.location"]) tn).1
      sraOffsets today) _ today nk s2 hg2
  have hndal : (keysOf (alignPresent
      (addEcdAcdFields (bucketSteps metrics
        (getMetric metrics ["project.remote_onsite", "project.location"]) tn).1
        sraOffsets today)
      (addEcdAcdFields (crossCopyKickoff
        (parseBool (getMetric metrics ["project.sra_enabled"]))
        (parseBool (getMetric metrics ["project.nva_enabled"]))
        (bucketSteps metrics
          (getMetric metrics ["project.remote_onsite", "project.location"]) tn).1
        (bucketSteps metrics
          (getMetric metrics ["project.remote_onsite", "project.location"]) tn).2)
        nvaOffsets today)
      today)).Nodup := by
    rw [keysOf_alignPresent, keysOf_addEcdAcdFields, keysOf_crossCopyKickoff]
    exact (nodup_bucketSteps metrics _ tn).2
  refine ⟨s3, ?_, by rw [ha3, ha2]⟩
  rw [buildDashboardAux_nva, getStep_orderSteps _ _ hndal]
  exact hg3

/-- Witness for C2 at the concrete two-kickoff row. -/
theorem claim_C2_witness :
    ∃ s2, getStep (buildDashboardAux rowC2.metrics "Acme" "open" dayC2).nva_steps
        "NVA Kickoff" = some s2 ∧
      s2.ACD = kickoffAcdOf (bucketSteps rowC2.metrics
        (getMetric rowC2.metrics ["project.remote_onsite", "project.location"])
        "Acme").1 "SRA Kickoff" := by
  obtain ⟨s, hs⟩ : ∃ s, getStep (bucketSteps rowC2.metrics
      (getMetric rowC2.metrics ["project.remote_onsite", "project.location"])
      "Acme").2 "NVA Kickoff" = some s := by
    cases hg : getStep (bucketSteps rowC2.metrics
        (getMetric rowC2.metrics ["project.remote_onsite", "project.location"])
        "Acme").2 "NVA Kickoff" with
    | none => exact absurd hg (by decide)
    | some s => exact ⟨s, rfl⟩
  exact claim_C2_amended rowC2.metrics "Acme" "open" dayC2 _ rfl
    "SRA Kickoff" "NVA Kickoff" s (by decide) (by decide) (by decide)
    (by decide) hs (by decide)

/-- C5 counterexample: with the NVA track disabled, a manual NVA present
ECD 03/03/2025 is still overwritten by the SRA present ECD 02/07/2025: the
alignment is applied regardless of the enabled flags. -/
theorem claim_C5_counterexample :
    (buildDashboard rowC5 dayC2).show_nva = false ∧
    lookupStr rowC5.metrics "nva.present_final_nva_report.ecd" = "03/03/2025" ∧
    ((getStep (buildDashboard rowC5 dayC2).nva_steps "Present Final NVA Report").map
        fun s => s.ECD) = some "02/07/2025" ∧
    ("02/07/2025" : String) ≠ "03/03/2025" := by
  decide

/-- C5 amended: whenever the SRA present_final_sra_report step leaves
projection with a non-blank ECD and both present steps exist, the NVA
present_final_nva_report ECD in the assembled dashboard equals that SRA
ECD — unconditionally, with no hypothesis on the sra_enabled or
nva_enabled flags. -/
theorem claim_C5_amended (metrics : List (String × String)) (tn ts : String)
    (today : Int) (loc : String)
    (hloc : loc = getMetric metrics ["project.remote_onsite", "project.location"])
    (nsra nnva : StepMap)
    (hnsra : nsra = addEcdAcdFields (bucketSteps metrics loc tn).1 sraOffsets today)
    (hnnva : nnva = addEcdAcdFields
      (crossCopyKickoff
        (parseBool (getMetric metrics ["project.sra_enabled"]))
        (parseBool (getMetric metrics ["project.nva_enabled"]))
        (bucketSteps metrics loc tn).1 (bucketSteps metrics loc tn).2)
      nvaOffsets today)
    (sp np : String) (s : Step)
    (hsp : findStepNameBySlug nsra "present_final_sra_report" = some sp)
    (hnp : findStepNameBySlug nnva "present_final_nva_report" = some np)
    (hns : getStep nnva np = some s)
    (he : presentEcdOf nsra sp ≠ "") :
    ∃ s2, getStep (buildDashboardAux metrics tn ts today).nva_steps np = some s2 ∧
      s2.ECD = presentEcdOf nsra sp := by
  have heff := alignPresent_effect nsra nnva today sp np s hsp hnp hns he
  have hndal : (keysOf (alignPresent nsra nnva today)).Nodup := by
    rw [keysOf_alignPresent, hnnva, keysOf_addEcdAcdFields, keysOf_crossCopyKickoff]
    exact (nodup_bucketSteps metrics loc tn).2
  refine ⟨alignUpd (presentEcdOf nsra sp) today s, ?_, ?_⟩
  · rw [buildDashboardAux_nva, ← hloc, ← hnsra, ← hnnva,
      getStep_orderSteps _ _ hndal]
    exact heff
  · rfl

/-- Witness for C5 at the concrete disabled-NVA row. -/
theorem claim_C5_witness :
    ∃ s2, getStep (buildDashboardAux rowC5.metrics "Acme" "open" dayC2).nva_steps
        "Present Final NVA Report" = some s2 ∧
      s2.ECD = presentEcdOf
        (addEcdAcdFields (bucketSteps rowC5.metrics
          (getMetric rowC5.metrics ["project.remote_onsite", "project.location"])
          "Acme").1 sraOffsets dayC2)
        "Present Final SRA Report" := by
  obtain ⟨s, hs⟩ : ∃ s, getStep (addEcdAcdFields
      (crossCopyKickoff
        (parseBool (getMetric rowC5.metrics ["project.sra_enabled"]))
        (parseBool (getMetric rowC5.metrics ["project.nva_enabled"]))
        (bucketSteps rowC5.metrics
          (getMetric rowC5.metrics ["project.remote_onsite", "project.location"])
          "Acme").1
        (bucketSteps rowC5.metrics
          (getMetric rowC5.metrics ["project.remote_onsite", "project.location"])
          "Acme").2)
      nvaOffsets dayC2) "Present Final NVA Report" = some s := by
    cases hg : getStep (addEcdAcdFields
        (crossCopyKickoff
          (parseBool (getMetric rowC5.metrics ["project.sra_enabled"]))
          (parseBool (getMetric rowC5.metrics ["project.nva_enabled"]))
          (bucketSteps rowC5.metrics
            (getMetric rowC5.metrics ["project.remote_onsite", "project.location"])
            "Acme").1
          (bucketSteps rowC5.metrics
            (getMetric rowC5.metrics ["project.remote_onsite", "project.location"])
            "Acme").2)
        nvaOffsets dayC2) "Present Final NVA Report" with
    | none => exact absurd hg (by decide)
    | some s => exact ⟨s, rfl⟩
  exact claim_C5_amended rowC5.metrics "Acme" "open" dayC2 _ rfl _ _ rfl rfl
    "Present Final SRA Report" "Present Final NVA Report" s (by decide)
    (by decide) hs (by decide)

end Dash


